import Mathlib

/-!
Shallow embedding of the Bounce cloth core (particles, topology extraction,
mass computation, body-contact refresh, and the implicit MPCG cloth solver)
over exact rational arithmetic, together with theorems settling the spec
claims.  Definitions are translated from
`src/bounce/cloth/cloth.cpp`, `src/bounce/dynamics/cloth/cloth_solver.cpp`
and `include/bounce/dynamics/cloth/cloth.h`.
-/

set_option maxHeartbeats 1600000

namespace Bounce

/-- `b3Vec3`: a 3-vector with rational components (idealizing `float32`). -/
structure b3Vec3 where
  x : ℚ
  y : ℚ
  z : ℚ
deriving DecidableEq, Repr

namespace b3Vec3

/-- The zero vector (`SetZero`). -/
def zero : b3Vec3 := ⟨0, 0, 0⟩

instance : Add b3Vec3 := ⟨fun a b => ⟨a.x + b.x, a.y + b.y, a.z + b.z⟩⟩
instance : Sub b3Vec3 := ⟨fun a b => ⟨a.x - b.x, a.y - b.y, a.z - b.z⟩⟩
instance : Neg b3Vec3 := ⟨fun a => ⟨-a.x, -a.y, -a.z⟩⟩
instance : SMul ℚ b3Vec3 := ⟨fun c a => ⟨c * a.x, c * a.y, c * a.z⟩⟩
instance : Zero b3Vec3 := ⟨zero⟩

@[simp] theorem zero_def : (0 : b3Vec3) = ⟨0, 0, 0⟩ := rfl

@[simp] theorem add_def (a b : b3Vec3) :
    a + b = ⟨a.x + b.x, a.y + b.y, a.z + b.z⟩ := rfl
@[simp] theorem sub_def (a b : b3Vec3) :
    a - b = ⟨a.x - b.x, a.y - b.y, a.z - b.z⟩ := rfl
@[simp] theorem neg_def (a : b3Vec3) : -a = ⟨-a.x, -a.y, -a.z⟩ := rfl
@[simp] theorem smul_def (c : ℚ) (a : b3Vec3) :
    c • a = ⟨c * a.x, c * a.y, c * a.z⟩ := rfl

theorem ext_iff {a b : b3Vec3} :
    a = b ↔ a.x = b.x ∧ a.y = b.y ∧ a.z = b.z := by
  cases a; cases b; simp

instance : AddCommGroup b3Vec3 where
  add_assoc a b c := by
    cases a; cases b; cases c; simp [ext_iff]; refine ⟨by ring, by ring, by ring⟩
  zero_add a := by cases a; simp [ext_iff]
  add_zero a := by cases a; simp [ext_iff]
  add_comm a b := by
    cases a; cases b; simp [ext_iff]; refine ⟨by ring, by ring, by ring⟩
  neg_add_cancel a := by cases a; simp [ext_iff]
  sub_eq_add_neg a b := by
    cases a; cases b; simp [ext_iff]; refine ⟨by ring, by ring, by ring⟩
  nsmul := nsmulRec
  zsmul := zsmulRec

end b3Vec3

/-- `b3Dot`: dot product of two 3-vectors. -/
def b3Dot (a b : b3Vec3) : ℚ := a.x * b.x + a.y * b.y + a.z * b.z

/-- `b3Cross`: cross product of two 3-vectors. -/
def b3Cross (a b : b3Vec3) : b3Vec3 :=
  ⟨a.y * b.z - a.z * b.y, a.z * b.x - a.x * b.z, a.x * b.y - a.y * b.x⟩

/-- `b3Mat33`: a 3x3 matrix stored as its three columns, as in Bounce. -/
structure b3Mat33 where
  cx : b3Vec3
  cy : b3Vec3
  cz : b3Vec3
deriving DecidableEq, Repr

namespace b3Mat33

/-- The zero matrix (`SetZero`). -/
def zero : b3Mat33 := ⟨b3Vec3.zero, b3Vec3.zero, b3Vec3.zero⟩

/-- The identity matrix (`SetIdentity`). -/
def identity : b3Mat33 := ⟨⟨1, 0, 0⟩, ⟨0, 1, 0⟩, ⟨0, 0, 1⟩⟩

instance : Add b3Mat33 := ⟨fun A B => ⟨A.cx + B.cx, A.cy + B.cy, A.cz + B.cz⟩⟩
instance : Sub b3Mat33 := ⟨fun A B => ⟨A.cx - B.cx, A.cy - B.cy, A.cz - B.cz⟩⟩
instance : Neg b3Mat33 := ⟨fun A => ⟨-A.cx, -A.cy, -A.cz⟩⟩
instance : SMul ℚ b3Mat33 := ⟨fun c A => ⟨c • A.cx, c • A.cy, c • A.cz⟩⟩

@[simp] theorem add_entries (A B : b3Mat33) :
    A + B = ⟨A.cx + B.cx, A.cy + B.cy, A.cz + B.cz⟩ := rfl
@[simp] theorem sub_entries (A B : b3Mat33) :
    A - B = ⟨A.cx - B.cx, A.cy - B.cy, A.cz - B.cz⟩ := rfl
@[simp] theorem smul_entries (c : ℚ) (A : b3Mat33) :
    c • A = ⟨c • A.cx, c • A.cy, c • A.cz⟩ := rfl

/-- Matrix-vector product: `A * v = v.x * A.cx + v.y * A.cy + v.z * A.cz`. -/
def mulVec (A : b3Mat33) (v : b3Vec3) : b3Vec3 :=
  v.x • A.cx + v.y • A.cy + v.z • A.cz

instance : HMul b3Mat33 b3Vec3 b3Vec3 := ⟨mulVec⟩

@[simp] theorem hmul_def (A : b3Mat33) (v : b3Vec3) :
    A * v = A.mulVec v := rfl

/-- Matrix-matrix product (column-wise). -/
def mul (A B : b3Mat33) : b3Mat33 :=
  ⟨A.mulVec B.cx, A.mulVec B.cy, A.mulVec B.cz⟩

/-- Transpose of a column-stored matrix. -/
def transpose (A : b3Mat33) : b3Mat33 :=
  ⟨⟨A.cx.x, A.cy.x, A.cz.x⟩, ⟨A.cx.y, A.cy.y, A.cz.y⟩, ⟨A.cx.z, A.cy.z, A.cz.z⟩⟩

theorem mulVec_add (A : b3Mat33) (v w : b3Vec3) :
    A.mulVec (v + w) = A.mulVec v + A.mulVec w := by
  cases A with | mk acx acy acz =>
  cases acx; cases acy; cases acz
  cases v; cases w
  simp [mulVec, b3Vec3.ext_iff]
  refine ⟨by ring, by ring, by ring⟩

theorem mulVec_smul (A : b3Mat33) (c : ℚ) (v : b3Vec3) :
    A.mulVec (c • v) = c • A.mulVec v := by
  cases A with | mk acx acy acz =>
  cases acx; cases acy; cases acz
  cases v
  simp [mulVec, b3Vec3.ext_iff]
  refine ⟨by ring, by ring, by ring⟩

theorem mulVec_mul (A B : b3Mat33) (v : b3Vec3) :
    (A.mul B).mulVec v = A.mulVec (B.mulVec v) := by
  cases A with | mk acx acy acz =>
  cases acx; cases acy; cases acz
  cases B with | mk bcx bcy bcz =>
  cases bcx; cases bcy; cases bcz
  cases v
  simp [mul, mulVec, b3Vec3.ext_iff]
  refine ⟨by ring, by ring, by ring⟩

@[simp] theorem identity_mulVec (v : b3Vec3) :
    identity.mulVec v = v := by
  cases v; simp [identity, mulVec, b3Vec3.ext_iff]

@[simp] theorem zero_mulVec (v : b3Vec3) :
    zero.mulVec v = 0 := by
  cases v; simp [zero, mulVec, b3Vec3.zero, b3Vec3.ext_iff]

theorem sub_mulVec (A B : b3Mat33) (v : b3Vec3) :
    (A - B).mulVec v = A.mulVec v - B.mulVec v := by
  cases A with | mk acx acy acz =>
  cases acx; cases acy; cases acz
  cases B with | mk bcx bcy bcz =>
  cases bcx; cases bcy; cases bcz
  cases v
  simp [mulVec, b3Vec3.ext_iff]
  refine ⟨by ring, by ring, by ring⟩

theorem sub_mul (A B C : b3Mat33) :
    (A - B).mul C = A.mul C - B.mul C := by
  simp only [mul, sub_mulVec]; rfl

theorem identity_mul (A : b3Mat33) : identity.mul A = A := by
  cases A; simp [mul]

theorem mul_identity (A : b3Mat33) : A.mul identity = A := by
  cases A with | mk acx acy acz =>
  cases acx; cases acy; cases acz
  simp [mul, identity, mulVec, b3Vec3.ext_iff]

theorem sub_self_eq_zero (A : b3Mat33) : A - A = zero := by
  cases A with | mk acx acy acz =>
  cases acx; cases acy; cases acz
  simp [zero, b3Vec3.zero, b3Vec3.ext_iff]

theorem mul_sub (A B C : b3Mat33) :
    A.mul (B - C) = A.mul B - A.mul C := by
  cases A with | mk acx acy acz =>
  cases acx; cases acy; cases acz
  cases B with | mk bcx bcy bcz =>
  cases bcx; cases bcy; cases bcz
  cases C with | mk ccx ccy ccz =>
  cases ccx; cases ccy; cases ccz
  simp [mul, mulVec, b3Vec3.ext_iff]
  refine ⟨⟨by ring, by ring, by ring⟩, ⟨by ring, by ring, by ring⟩,
    by ring, by ring, by ring⟩

theorem transpose_add (A B : b3Mat33) :
    (A + B).transpose = A.transpose + B.transpose := by
  cases A with | mk acx acy acz =>
  cases acx; cases acy; cases acz
  cases B with | mk bcx bcy bcz =>
  cases bcx; cases bcy; cases bcz
  simp [transpose]

theorem transpose_smul (c : ℚ) (A : b3Mat33) :
    (c • A).transpose = c • A.transpose := by
  cases A with | mk acx acy acz =>
  cases acx; cases acy; cases acz
  simp [transpose]

@[simp] theorem transpose_zero : zero.transpose = zero := by
  simp [transpose, zero, b3Vec3.zero]

end b3Mat33

/-- `b3Outer(a, b)`: outer product `a * b^T`, stored column-wise.
Modelled from the spec: the math headers are outside `src/`; `S_i` blocks are
"identity minus outer products of the constrained direction(s)". -/
def b3Outer (a b : b3Vec3) : b3Mat33 :=
  ⟨b.x • a, b.y • a, b.z • a⟩

/-- `b3Det(x, y, z)`: determinant of the matrix with columns `x, y, z`
(scalar triple product).  Modelled from the spec: the math headers are
outside `src/`. -/
def b3Det (x y z : b3Vec3) : ℚ := b3Dot x (b3Cross y z)

/-- `b3Diagonal(m)`: the diagonal matrix `diag(m, m, m)`. -/
def b3Diagonal (m : ℚ) : b3Mat33 :=
  ⟨⟨m, 0, 0⟩, ⟨0, m, 0⟩, ⟨0, 0, m⟩⟩

/-- `b3Diagonal(x, y, z)`: the diagonal matrix `diag(x, y, z)`. -/
def b3Diagonal3 (x y z : ℚ) : b3Mat33 :=
  ⟨⟨x, 0, 0⟩, ⟨0, y, 0⟩, ⟨0, 0, z⟩⟩

@[simp] theorem transpose_b3Diagonal (m : ℚ) :
    (b3Diagonal m).transpose = b3Diagonal m := by
  simp [b3Diagonal, b3Mat33.transpose]

/-- `b3DenseVec3`: a dense vector of `n` 3-vector entries. -/
def b3DenseVec3 (n : ℕ) := Fin n → b3Vec3

namespace b3DenseVec3

instance (n : ℕ) : Add (b3DenseVec3 n) := ⟨fun a b i => a i + b i⟩
instance (n : ℕ) : Sub (b3DenseVec3 n) := ⟨fun a b i => a i - b i⟩
instance (n : ℕ) : SMul ℚ (b3DenseVec3 n) := ⟨fun c a i => c • a i⟩

@[simp] theorem add_apply {n : ℕ} (a b : b3DenseVec3 n) (i : Fin n) :
    (a + b) i = a i + b i := rfl
@[simp] theorem sub_apply {n : ℕ} (a b : b3DenseVec3 n) (i : Fin n) :
    (a - b) i = a i - b i := rfl
@[simp] theorem smul_apply {n : ℕ} (c : ℚ) (a : b3DenseVec3 n) (i : Fin n) :
    (c • a) i = c • a i := rfl

/-- The all-zero dense vector (`SetZero`). -/
def zero (n : ℕ) : b3DenseVec3 n := fun _ => b3Vec3.zero

instance (n : ℕ) : DecidableEq (b3DenseVec3 n) :=
  fun a b => Fintype.decidablePiFintype a b

end b3DenseVec3

/-- `b3Dot` on dense vectors: sum of entrywise 3-vector dot products. -/
def b3DotDense {n : ℕ} (a b : b3DenseVec3 n) : ℚ :=
  ∑ i, b3Dot (a i) (b i)

/-- `b3DiagMat33`: a diagonal matrix of `n` 3x3 blocks. -/
def b3DiagMat33 (n : ℕ) := Fin n → b3Mat33

namespace b3DiagMat33

/-- `SetIdentity`. -/
def identity (n : ℕ) : b3DiagMat33 n := fun _ => b3Mat33.identity

instance (n : ℕ) : Sub (b3DiagMat33 n) := ⟨fun A B i => A i - B i⟩

@[simp] theorem sub_apply_block {n : ℕ} (A B : b3DiagMat33 n) (i : Fin n) :
    (A - B) i = A i - B i := rfl

/-- Diagonal-matrix times dense-vector product. -/
def mulVec {n : ℕ} (D : b3DiagMat33 n) (v : b3DenseVec3 n) : b3DenseVec3 n :=
  fun i => (D i).mulVec (v i)

end b3DiagMat33

/-- `b3SymMat33` / `b3SparseSymMat33`: a symmetric matrix of 3x3 blocks.
Only the upper triangle (`i ≤ j`) is meaningful in `upper`.
Modelled from the spec: the matrix headers are outside `src/`; "upper
triangle only, mirrored implicitly", and accessing block `(i, j)` with
`i > j` returns the transpose of block `(j, i)`. -/
structure b3SymMat33 (n : ℕ) where
  upper : Fin n → Fin n → b3Mat33

namespace b3SymMat33

/-- Block access `A(i, j)`: the stored upper block for `i ≤ j`, the transpose
of the mirrored block otherwise. -/
def get {n : ℕ} (A : b3SymMat33 n) (i j : Fin n) : b3Mat33 :=
  if i ≤ j then A.upper i j else (A.upper j i).transpose

/-- The zero symmetric matrix (`SetZero`). -/
def zero (n : ℕ) : b3SymMat33 n := ⟨fun _ _ => b3Mat33.zero⟩

/-- Symmetric-matrix times dense-vector product (`b3Mul`): row `i` is the sum
over all columns of `A(i, j) * v(j)`. -/
def mulVec {n : ℕ} (A : b3SymMat33 n) (v : b3DenseVec3 n) : b3DenseVec3 n :=
  fun i => ∑ j, (A.get i j).mulVec (v j)

/-- `Diagonal`: extract the diagonal 3x3 blocks. -/
def diagonal {n : ℕ} (A : b3SymMat33 n) : b3DiagMat33 n :=
  fun i => A.get i i

end b3SymMat33

/-- `b3ParticleType` from `include/bounce/dynamics/cloth/cloth.h`. -/
inductive b3ParticleType where
  | e_staticParticle
  | e_kinematicParticle
  | e_dynamicParticle
deriving DecidableEq, Repr

open b3ParticleType

/-- `b3Particle`: per-vertex simulation state, from
`include/bounce/dynamics/cloth/cloth.h` (the solver-relevant fields). -/
structure b3Particle where
  type : b3ParticleType
  position : b3Vec3
  velocity : b3Vec3
  force : b3Vec3
  mass : ℚ
  invMass : ℚ
  radius : ℚ
  translation : b3Vec3
  /-- Cached solution `x` seeding the next solve. -/
  x : b3Vec3
deriving DecidableEq, Repr

/-- `b3ParticleContact` from `include/bounce/dynamics/cloth/cloth.h`:
per-particle contact record consumed by the solver.  `p1` is the particle's
solver index; `s2` identifies the shape; `s` is the separation. -/
structure b3ParticleContact (np : ℕ) where
  p1 : Fin np
  s2 : ℕ
  s : ℚ
  normal : b3Vec3
  t1 : b3Vec3
  t2 : b3Vec3
  Fn : ℚ
  Ft1 : ℚ
  Ft2 : ℚ
  n_active : Bool
  t1_active : Bool
  t2_active : Bool
deriving DecidableEq, Repr

/-- `b3AccelerationConstraint` built by `b3ClothSolver::InitializeConstraints`.
Fields the C++ leaves unwritten in a branch are filled with zero; they are
never read by `Compute_S_z` on that branch. -/
structure b3AccelerationConstraint (np : ℕ) where
  i1 : Fin np
  ndof : ℕ
  p : b3Vec3
  q : b3Vec3
  z : b3Vec3
deriving DecidableEq, Repr

namespace b3ClothSolver

/-- The constraint produced for one contact by
`b3ClothSolver::InitializeConstraints` (lines 136-166): start with
`ndof = 2`, `p = n`, `z = 0`; both tangents active gives `ndof = 0`;
otherwise each active tangent sets `ndof = 1` and `q` (the `t2` branch runs
second and overwrites `q`). -/
def contactConstraint {np : ℕ} (pc : b3ParticleContact np) :
    b3AccelerationConstraint np :=
  let base : b3AccelerationConstraint np :=
    { i1 := pc.p1, ndof := 2, p := pc.normal, q := 0, z := 0 }
  if pc.t1_active ∧ pc.t2_active then
    { base with ndof := 0 }
  else
    let b1 := if pc.t1_active then { base with ndof := 1, q := pc.t1 } else base
    if pc.t2_active then { b1 with ndof := 1, q := pc.t2 } else b1

/-- `b3ClothSolver::InitializeConstraints`: one zero-dof constraint per
non-dynamic particle (scanned in solver-index order), then one constraint
per contact. -/
def initializeConstraints {np : ℕ} (particles : Fin np → b3Particle)
    (contacts : List (b3ParticleContact np)) :
    List (b3AccelerationConstraint np) :=
  ((List.finRange np).filterMap fun i =>
    if (particles i).type ≠ e_dynamicParticle then
      some { i1 := i, ndof := 0, p := 0, q := 0, z := 0 }
    else none)
  ++ contacts.map contactConstraint

/-- One `Compute_S_z` loop body (lines 341-370): set `z[ip]`, then set
`S[ip]` according to `ndof`. -/
def applyConstraint {np : ℕ} (Sz : b3DiagMat33 np × b3DenseVec3 np)
    (ac : b3AccelerationConstraint np) : b3DiagMat33 np × b3DenseVec3 np :=
  let z' := Function.update Sz.2 ac.i1 ac.z
  let S0 := Sz.1
  let S1 := if ac.ndof = 2 then
      Function.update S0 ac.i1 (b3Mat33.identity - b3Outer ac.p ac.p)
    else S0
  let S2 := if ac.ndof = 1 then
      Function.update S1 ac.i1
        (b3Mat33.identity - b3Outer ac.p ac.p - b3Outer ac.q ac.q)
    else S1
  let S3 := if ac.ndof = 0 then
      Function.update S2 ac.i1 b3Mat33.zero
    else S2
  (S3, z')

/-- `b3ClothSolver::Compute_S_z`: start from `S = identity`, `z = 0` and
apply every constraint in order. -/
def Compute_S_z {np : ℕ}
    (constraints : List (b3AccelerationConstraint np)) :
    b3DiagMat33 np × b3DenseVec3 np :=
  constraints.foldl applyConstraint
    (b3DiagMat33.identity np, b3DenseVec3.zero np)

/-- `b3ClothSolver::Compute_A_b`: `A = M - h*dfdv - h*h*dfdx` on the stored
upper triangle and `b = h * (f + h * (dfdx * v) + dfdx * y)`.  The `x`
argument is passed by the source but unused there. -/
def Compute_A_b {np : ℕ} (particles : Fin np → b3Particle) (dt : ℚ)
    (dfdx dfdv : b3SymMat33 np) (f x v y : b3DenseVec3 np) :
    b3SymMat33 np × b3DenseVec3 np :=
  let _ := x
  let h := dt
  let A : b3SymMat33 np :=
    ⟨fun i j =>
      (if i = j then b3Diagonal (particles i).mass else b3Mat33.zero)
        + ((-h) • dfdv.get i j + (-(h * h)) • dfdx.get i j)⟩
  let b := h • (f + h • dfdx.mulVec v + dfdx.mulVec y)
  (A, b)

/-- One diagonal block of the MPCG preconditioner (lines 383-400): the
reciprocals of the three diagonal scalars of `D`. -/
def invertDiag (D : b3Mat33) : b3Mat33 :=
  b3Diagonal3 (1 / D.cx.x) (1 / D.cy.y) (1 / D.cz.z)

/-- The `B3_ASSERT`s guarding the preconditioner inversion: positive
determinant (Sylvester criterion check) and nonzero diagonal scalars. -/
def precondAssertOK (D : b3Mat33) : Prop :=
  0 < b3Det D.cx D.cy D.cz ∧ D.cx.x ≠ 0 ∧ D.cy.y ≠ 0 ∧ D.cz.z ≠ 0

instance : DecidablePred precondAssertOK := fun D => by
  unfold precondAssertOK; infer_instance

/-- `inv_P`: the Jacobi preconditioner assembled from `A`'s diagonal. -/
def solverInvP {np : ℕ} (A : b3SymMat33 np) : b3DiagMat33 np :=
  fun i => invertDiag (A.diagonal i)

/-- `tolerance = 1e-4`. -/
def tolerance : ℚ := 1 / 10000

/-- `max_iterations = 100`. -/
def max_iterations : ℕ := 100

/-- The transient state of the MPCG main loop. -/
structure MPCGState (np : ℕ) where
  x : b3DenseVec3 np
  r : b3DenseVec3 np
  p : b3DenseVec3 np
  delta_new : ℚ

/-- The convergence test `delta_new <= tolerance * tolerance * b_delta`. -/
def mpcgConverged {np : ℕ} (b_delta : ℚ) (st : MPCGState np) : Prop :=
  st.delta_new ≤ tolerance * tolerance * b_delta

instance {np : ℕ} (b_delta : ℚ) (st : MPCGState np) :
    Decidable (mpcgConverged b_delta st) := by
  unfold mpcgConverged; infer_instance

/-- One MPCG iteration (lines 450-477). -/
def mpcgStep {np : ℕ} (A : b3SymMat33 np) (S invP : b3DiagMat33 np)
    (st : MPCGState np) : MPCGState np :=
  let s := b3DiagMat33.mulVec S (A.mulVec st.p)
  let alpha := st.delta_new / b3DotDense st.p s
  let x := st.x + alpha • st.p
  let r := st.r - alpha • s
  let h := b3DiagMat33.mulVec invP r
  let delta_old := st.delta_new
  let delta_new := b3DotDense r h
  let beta := delta_new / delta_old
  let p := b3DiagMat33.mulVec S (h + beta • st.p)
  ⟨x, r, p, delta_new⟩

/-- The MPCG main loop (lines 431-478): break when the iteration budget is
exhausted or the convergence test holds; return the final state and the
number of iterations performed. -/
def mpcgLoop {np : ℕ} (A : b3SymMat33 np) (S invP : b3DiagMat33 np)
    (b_delta : ℚ) : ℕ → MPCGState np → MPCGState np × ℕ
  | 0, st => (st, 0)
  | fuel + 1, st =>
    if mpcgConverged b_delta st then (st, 0)
    else
      let res := mpcgLoop A S invP b_delta fuel (mpcgStep A S invP st)
      (res.1, res.2 + 1)

/-- `b3ClothSolver::Solve(x, iterations, A, b, S, z, y)` (lines 373-481):
the full MPCG solve.  Returns the solution, the iteration count, and the
quantities needed to state the spec claims (`b_delta` and the initial
state). -/
def mpcgSolve {np : ℕ} (A : b3SymMat33 np) (b : b3DenseVec3 np)
    (S : b3DiagMat33 np) (z y : b3DenseVec3 np) :
    b3DenseVec3 np × ℕ :=
  let inv_P := solverInvP A
  let I := b3DiagMat33.identity np
  let x := b3DiagMat33.mulVec S y + b3DiagMat33.mulVec (I - S) z
  let b_hat := b3DiagMat33.mulVec S
    (b - A.mulVec (b3DiagMat33.mulVec (I - S) z))
  let b_delta := b3DotDense b_hat (b3DiagMat33.mulVec inv_P b_hat)
  let r := b3DiagMat33.mulVec S (b - A.mulVec x)
  let p := b3DiagMat33.mulVec S (b3DiagMat33.mulVec inv_P r)
  let delta_new := b3DotDense r p
  let res := mpcgLoop A S inv_P b_delta max_iterations ⟨x, r, p, delta_new⟩
  (res.1.x, res.2)

/-- The MPCG initial state `x = S*y + (I-S)*z`, `r = S*(b - A*x)`,
`p = S*(inv_P*r)`, `delta_new = dot(r, p)`. -/
def mpcgInit {np : ℕ} (A : b3SymMat33 np) (b : b3DenseVec3 np)
    (S : b3DiagMat33 np) (z y : b3DenseVec3 np) : MPCGState np :=
  let inv_P := solverInvP A
  let I := b3DiagMat33.identity np
  let x := b3DiagMat33.mulVec S y + b3DiagMat33.mulVec (I - S) z
  let r := b3DiagMat33.mulVec S (b - A.mulVec x)
  let p := b3DiagMat33.mulVec S (b3DiagMat33.mulVec inv_P r)
  ⟨x, r, p, b3DotDense r p⟩

/-- `b_delta = dot(b_hat, inv_P * b_hat)` with
`b_hat = S * (b - A * ((I - S) * z))`. -/
def mpcgBDelta {np : ℕ} (A : b3SymMat33 np) (b : b3DenseVec3 np)
    (S : b3DiagMat33 np) (z : b3DenseVec3 np) : ℚ :=
  let inv_P := solverInvP A
  let I := b3DiagMat33.identity np
  let b_hat := b3DiagMat33.mulVec S
    (b - A.mulVec (b3DiagMat33.mulVec (I - S) z))
  b3DotDense b_hat (b3DiagMat33.mulVec inv_P b_hat)

end b3ClothSolver

/-- `b3ClothSolverData`: the shared solver buffers handed to each force
(`x`, `v`, `f` state buffers, Jacobian accumulators, time step). -/
structure b3ClothSolverData (np : ℕ) where
  x : b3DenseVec3 np
  v : b3DenseVec3 np
  f : b3DenseVec3 np
  dfdx : b3SymMat33 np
  dfdv : b3SymMat33 np
  dt : ℚ
  invdt : ℚ

/-- `b3Force`: polymorphic internal force.  `Initialize` and `Apply` are
virtual in the source and the spring implementation lives outside the given
files, so a force is modelled as an arbitrary pair of updates of the shared
solver data, exactly the access the C++ dispatch grants it. -/
structure b3Force (np : ℕ) where
  Initialize : b3ClothSolverData np → b3ClothSolverData np
  Apply : b3ClothSolverData np → b3ClothSolverData np

namespace b3ClothSolver

/-- The result of one outer `b3ClothSolver::Solve(dt, gravity)` call:
updated particles, contacts with recovered constraint forces, and the MPCG
iteration count. -/
structure SolveResult (np : ℕ) where
  particles : Fin np → b3Particle
  contacts : List (b3ParticleContact np)
  iterations : ℕ

/-- The gathered force buffer (lines 193-209): particle force plus
`mass * gravity` for dynamic particles only. -/
def gatherForce {np : ℕ} (particles : Fin np → b3Particle)
    (gravity : b3Vec3) : b3DenseVec3 np :=
  fun i =>
    (particles i).force +
      (if (particles i).type = e_dynamicParticle
        then (particles i).mass • gravity else 0)

/-- The contact position correction (lines 212-217): for each contact,
`sy[p] -= s * n`. -/
def biasTranslation {np : ℕ} (particles : Fin np → b3Particle)
    (contacts : List (b3ParticleContact np)) : b3DenseVec3 np :=
  contacts.foldl
    (fun sy c => Function.update sy c.p1 (sy c.p1 - c.s • c.normal))
    (fun i => (particles i).translation)

/-- `b3ClothSolver::Solve(float32 dt, const b3Vec3& gravity)`
(lines 169-293): gather, bias translations, run the forces, build
constraints and `S`, `z`, assemble `A`, `b`, run MPCG, integrate, write
back, and recover contact constraint forces from `f = A*x - b`. -/
def Solve {np : ℕ} (particles : Fin np → b3Particle)
    (forces : List (b3Force np)) (contacts : List (b3ParticleContact np))
    (dt : ℚ) (gravity : b3Vec3) : SolveResult np :=
  let sx : b3DenseVec3 np := fun i => (particles i).position
  let sv : b3DenseVec3 np := fun i => (particles i).velocity
  let sf := gatherForce particles gravity
  let sy := biasTranslation particles contacts
  let sx0 : b3DenseVec3 np := fun i => (particles i).x
  let sd0 : b3ClothSolverData np :=
    ⟨sx, sv, sf, b3SymMat33.zero np, b3SymMat33.zero np, dt, 1 / dt⟩
  -- InitializeForces, then ApplyForces
  let sd1 := forces.foldl (fun sd fo => fo.Initialize sd) sd0
  let sd2 := forces.foldl (fun sd fo => fo.Apply sd) sd1
  let constraints := initializeConstraints particles contacts
  let Sz := Compute_S_z constraints
  let Ab := Compute_A_b particles sd2.dt sd2.dfdx sd2.dfdv sd2.f sd2.x sd2.v sy
  let A := Ab.1
  let b := Ab.2
  let xres := mpcgSolve A b Sz.1 Sz.2 sx0
  let x := xres.1
  let h := dt
  let sv' := sd2.v + x
  let sx' := sd2.x + h • sv' + sy
  let f := A.mulVec x - b
  { particles := fun i =>
      { particles i with position := sx' i, velocity := sv' i, x := x i }
    contacts := contacts.map fun c =>
      { c with
        Fn := b3Dot (f c.p1) c.normal
        Ft1 := b3Dot (f c.p1) c.t1
        Ft2 := b3Dot (f c.p1) c.t2 }
    iterations := xres.2 }

end b3ClothSolver

/-! ## Topology extraction (`src/bounce/cloth/cloth.cpp`) -/

/-- `b3ClothMeshTriangle`: a triangle naming three vertex indices. -/
structure b3ClothMeshTriangle where
  v1 : ℕ
  v2 : ℕ
  v3 : ℕ
deriving DecidableEq, Repr

/-- The three directed edges of a triangle in scan order
(`j1 = 0, 1, 2` with `b3NextIndex`): `(v1,v2), (v2,v3), (v3,v1)`. -/
def triEdges (t : b3ClothMeshTriangle) : List (ℕ × ℕ) :=
  [(t.v1, t.v2), (t.v2, t.v3), (t.v3, t.v1)]

/-- The directed edges of all triangles, in input order. -/
def dirEdges (ts : List b3ClothMeshTriangle) : List (ℕ × ℕ) :=
  (ts.map triEdges).flatten

/-- The undirected-equality test used by `b3FindUniqueEdges` (lines 57-72):
`{a, b} == {b, a}`. -/
def b3EdgeEq (ue e : ℕ × ℕ) : Bool :=
  (ue.1 == e.1 && ue.2 == e.2) || (ue.2 == e.1 && ue.1 == e.2)

/-- One step of the unique-edge scan: append the candidate edge unless an
undirected-equal edge was already recorded. -/
def addUniqueEdge (acc : List (ℕ × ℕ)) (e : ℕ × ℕ) : List (ℕ × ℕ) :=
  if acc.any (fun ue => b3EdgeEq ue e) then acc else acc ++ [e]

/-- `b3FindUniqueEdges` (lines 41-85): scan every triangle's directed edges
in input order, keeping the first representative of each undirected edge. -/
def b3FindUniqueEdges (ts : List b3ClothMeshTriangle) : List (ℕ × ℕ) :=
  (dirEdges ts).foldl addUniqueEdge []

/-- The structural springs created by the `b3Cloth` constructor
(lines 191-202): exactly one per unique edge, connecting its two vertices. -/
def structuralSprings (ts : List b3ClothMeshTriangle) : List (ℕ × ℕ) :=
  (b3FindUniqueEdges ts).map fun e => (e.1, e.2)

/-! ## Mass computation (`b3Cloth::ComputeMass`, lines 312-351) -/

/-- A cloth mesh for mass computation: vertex positions and triangles over
`Fin V` vertex indices. -/
structure ClothMassMesh (V : ℕ) where
  vertices : Fin V → b3Vec3
  triangles : List (Fin V × Fin V × Fin V)

/-- Add `c` to coordinate `i` of `f` (one `p->m_mass += c` statement). -/
def massAdd {V : ℕ} (f : Fin V → ℚ) (i : Fin V) (c : ℚ) : Fin V → ℚ :=
  Function.update f i (f i + c)

/-- One triangle's contribution in `ComputeMass`: `mass = rho * area`, a
third of it added to each of the triangle's three vertices in turn. -/
def massStep {V : ℕ} (area3 : b3Vec3 → b3Vec3 → b3Vec3 → ℚ)
    (m : ClothMassMesh V) (rho : ℚ) (f : Fin V → ℚ)
    (t : Fin V × Fin V × Fin V) : Fin V → ℚ :=
  let area := area3 (m.vertices t.1) (m.vertices t.2.1) (m.vertices t.2.2)
  let mass := rho * area
  massAdd (massAdd (massAdd f t.1 ((1 / 3) * mass)) t.2.1 ((1 / 3) * mass))
    t.2.2 ((1 / 3) * mass)

/-- `b3Cloth::ComputeMass`: zero all particle masses, then accumulate a
third of each triangle's `density * area` into each of its vertices.
`area3` stands for `b3Area`, whose implementation (half cross-product norm)
lives outside `src/`; every theorem below holds for an arbitrary `area3`. -/
def ComputeMass {V : ℕ} (area3 : b3Vec3 → b3Vec3 → b3Vec3 → ℚ)
    (m : ClothMassMesh V) (rho : ℚ) : Fin V → ℚ :=
  m.triangles.foldl (massStep area3 m rho) (fun _ => 0)

/-- The `B3_ASSERT`s of `ComputeMass`: every triangle area is positive and
every final particle mass is positive. -/
def ComputeMassAssertOK {V : ℕ} (area3 : b3Vec3 → b3Vec3 → b3Vec3 → ℚ)
    (m : ClothMassMesh V) (rho : ℚ) : Prop :=
  (∀ t ∈ m.triangles,
    0 < area3 (m.vertices t.1) (m.vertices t.2.1) (m.vertices t.2.2)) ∧
  (∀ v : Fin V, 0 < ComputeMass area3 m rho v)

/-! ## Body-contact refresh (`b3Cloth::UpdateBodyContacts`, lines 402-488) -/

/-- A 2-vector, used for the accumulated tangent impulse. -/
structure b3Vec2 where
  x : ℚ
  y : ℚ
deriving DecidableEq, Repr

/-- `b3ParticleBodyContact`: the per-particle body contact record of
`src/bounce/cloth/cloth.cpp`. -/
structure b3ParticleBodyContact where
  active : Bool
  p1 : ℕ
  s2 : ℕ
  normal1 : b3Vec3
  localPoint1 : b3Vec3
  localPoint2 : b3Vec3
  t1 : b3Vec3
  t2 : b3Vec3
  normalImpulse : ℚ
  tangentImpulse : b3Vec2
deriving DecidableEq, Repr

/-- `b3TestSphereOutput`: result of the external sphere-vs-shape query. -/
structure b3TestSphereOutput where
  point : b3Vec3
  normal : b3Vec3
  separation : ℚ
deriving DecidableEq, Repr

/-- One shape tested during the refresh: its identifier, whether its body is
static, whether `TestSphere` reported penetration, the query output, and the
body origin (standing for the body transform of the external rigid world,
used only by `GetLocalPoint`). -/
structure ShapeQuery where
  shapeId : ℕ
  bodyStatic : Bool
  hit : Bool
  out : b3TestSphereOutput
  bodyOrigin : b3Vec3
deriving DecidableEq, Repr

/-- `b3Perp`: some vector perpendicular to a generic input.  Modelled from
the spec: the math headers are outside `src/`; the tangent basis choice is
irrelevant to every claim below. -/
def b3Perp (v : b3Vec3) : b3Vec3 := ⟨-v.y, v.x, 0⟩

/-- The running best separation during the scan: `0` until a shape is kept
(`bestSeparation` is initialized to `0.0f`). -/
def bestSep (best : Option ShapeQuery) : ℚ :=
  match best with
  | none => 0
  | some q => q.out.separation

/-- The deepest-penetration scan (lines 419-452): a shape is considered only
for a dynamic particle, a static body, and a reported hit, and replaces the
running best exactly when its separation is strictly smaller. -/
def scanShapes (ptype : b3ParticleType) (queries : List ShapeQuery) :
    Option ShapeQuery :=
  queries.foldl
    (fun best q =>
      if ptype ≠ e_dynamicParticle then best
      else if !q.bodyStatic then best
      else if q.hit ∧ q.out.separation < bestSep best then some q else best)
    none

/-- The refresh of one particle's body contact (lines 413-487): no shape
kept marks the record inactive (leaving every other field as it was);
otherwise the record is rebuilt from the winning shape with zero accumulated
impulses, and the previous impulses are carried over iff the previous record
was active. -/
def UpdateBodyContact (pIdx : ℕ) (ptype : b3ParticleType)
    (c0 : b3ParticleBodyContact) (queries : List ShapeQuery) :
    b3ParticleBodyContact :=
  match scanShapes ptype queries with
  | none => { c0 with active := false }
  | some q =>
    let normal := -q.out.normal
    let c : b3ParticleBodyContact :=
      { active := true
        p1 := pIdx
        s2 := q.shapeId
        normal1 := normal
        localPoint1 := 0
        localPoint2 := q.out.point - q.bodyOrigin
        t1 := b3Perp normal
        t2 := b3Cross (b3Perp normal) normal
        normalImpulse := 0
        tangentImpulse := ⟨0, 0⟩ }
    if c0.active then
      { c with
        normalImpulse := c0.normalImpulse
        tangentImpulse := c0.tangentImpulse }
    else c

/-! ## `b3Cloth::Step` (lines 531-550) -/

/-- The cloth state observed by `Step`: the particle set and each
particle's body-contact record. -/
structure ClothState (np : ℕ) where
  particles : Fin np → b3Particle
  contacts : Fin np → b3ParticleBodyContact

/-- `b3Cloth::UpdateBodyContacts` over the whole state: every particle's
record is refreshed against the world query results for its sphere. -/
def UpdateBodyContacts {np : ℕ}
    (world : b3Vec3 → ℚ → List ShapeQuery) (st : ClothState np) :
    ClothState np :=
  { st with
    contacts := fun i =>
      UpdateBodyContact i.val (st.particles i).type (st.contacts i)
        (world (st.particles i).position (st.particles i).radius) }

/-- `b3Cloth::Step`: refresh contacts unconditionally, run the solver only
when `dt > 0`, then clear every particle's pending force and translation.
`solve` stands for `b3Cloth::Solve` (solver construction and run), whose
internals are settled by the solver theorems above. -/
def ClothStep {np : ℕ} (world : b3Vec3 → ℚ → List ShapeQuery)
    (solve : ℚ → ClothState np → ClothState np) (dt : ℚ)
    (st : ClothState np) : ClothState np :=
  let st1 := UpdateBodyContacts world st
  let st2 := if 0 < dt then solve dt st1 else st1
  { st2 with
    particles := fun i =>
      { st2.particles i with force := 0, translation := 0 } }

/-! ## `b3Cloth::SetType` (`include/bounce/dynamics/cloth/cloth.h`,
lines 304-325) -/

/-- `b3Cloth::SetType`: no-op when the type is unchanged; otherwise set the
type and zero the accumulated force, and additionally, when the new type is
static, zero velocity and pending translation and deactivate the particle's
contact record. -/
def SetType {np : ℕ} (p : b3Particle) (c : b3ParticleContact np)
    (t : b3ParticleType) : b3Particle × b3ParticleContact np :=
  if p.type = t then (p, c)
  else
    let p1 := { p with type := t, force := 0 }
    if t = e_staticParticle then
      ({ p1 with velocity := 0, translation := 0 },
       { c with n_active := false, t1_active := false, t2_active := false })
    else (p1, c)

/-! ## Claim theorems -/

/-- C10: `SetType(p, t)` with `t` equal to `p`'s current type modifies
nothing; with a different `t` it always zeroes `p`'s accumulated external
force, for every target type (including kinematic and dynamic), and only a
transition to static additionally zeroes velocity and pending translation
and deactivates the contact record. -/
theorem claim_C10 {np : ℕ} (p : b3Particle) (c : b3ParticleContact np)
    (t : b3ParticleType) :
    (p.type = t → SetType p c t = (p, c)) ∧
    (p.type ≠ t →
      (SetType p c t).1.type = t ∧ (SetType p c t).1.force = 0 ∧
      (SetType p c t).1.position = p.position ∧
      (SetType p c t).1.mass = p.mass ∧
      (t = e_staticParticle →
        (SetType p c t).1.velocity = 0 ∧ (SetType p c t).1.translation = 0 ∧
        (SetType p c t).2.n_active = false ∧
        (SetType p c t).2.t1_active = false ∧
        (SetType p c t).2.t2_active = false) ∧
      (t ≠ e_staticParticle →
        (SetType p c t).1.velocity = p.velocity ∧
        (SetType p c t).1.translation = p.translation ∧
        (SetType p c t).2 = c)) := by
  refine ⟨fun h => by simp [SetType, h], fun h => ?_⟩
  by_cases hs : t = e_staticParticle
  · subst hs
    simp [SetType, h]
  · simp [SetType, h, hs]

/-- A concrete dynamic particle with nonzero force, velocity, translation. -/
def c10p : b3Particle :=
  ⟨e_dynamicParticle, ⟨1, 1, 1⟩, ⟨2, 2, 2⟩, ⟨3, 3, 3⟩, 5, 1 / 5, 0, ⟨4, 4, 4⟩, 0⟩

/-- A concrete fully-engaged contact record. -/
def c10c : b3ParticleContact 1 :=
  ⟨0, 7, -1, ⟨0, 0, 1⟩, ⟨1, 0, 0⟩, ⟨0, 1, 0⟩, 0, 0, 0, true, true, true⟩

theorem claim_C10_witness :
    c10p.type ≠ e_kinematicParticle ∧
    (SetType c10p c10c e_kinematicParticle).1.force = 0 ∧
    (SetType c10p c10c e_kinematicParticle).2 = c10c :=
  ⟨by decide,
   ((claim_C10 c10p c10c e_kinematicParticle).2 (by decide)).2.1,
   (((claim_C10 c10p c10c e_kinematicParticle).2 (by decide)).2.2.2.2.2
     (by decide)).2.2⟩

/-- C8: every `Step` refreshes body contacts unconditionally, runs the
solver exactly when `dt > 0`, and clears every particle's pending external
force and translation on return; with `dt = 0` (more generally `dt ≤ 0`)
every particle's position and velocity are unchanged. -/
theorem claim_C8 {np : ℕ} (world : b3Vec3 → ℚ → List ShapeQuery)
    (solve : ℚ → ClothState np → ClothState np) (dt : ℚ)
    (st : ClothState np) :
    (∀ i, ((ClothStep world solve dt st).particles i).force = 0 ∧
      ((ClothStep world solve dt st).particles i).translation = 0) ∧
    (0 < dt → ClothStep world solve dt st =
      { solve dt (UpdateBodyContacts world st) with
        particles := fun i =>
          { (solve dt (UpdateBodyContacts world st)).particles i with
            force := 0, translation := 0 } }) ∧
    (¬ 0 < dt →
      (ClothStep world solve dt st).contacts =
        (UpdateBodyContacts world st).contacts ∧
      ∀ i, ((ClothStep world solve dt st).particles i).position =
          (st.particles i).position ∧
        ((ClothStep world solve dt st).particles i).velocity =
          (st.particles i).velocity) := by
  unfold ClothStep
  by_cases h : 0 < dt <;> simp [h, UpdateBodyContacts]

/-- An inactive concrete body-contact record. -/
def c8contact : b3ParticleBodyContact :=
  ⟨false, 0, 0, 0, 0, 0, 0, 0, 0, ⟨0, 0⟩⟩

/-- A concrete one-particle cloth state. -/
def c8st : ClothState 1 :=
  { particles := fun _ => c10p, contacts := fun _ => c8contact }

theorem claim_C8_witness :
    ¬ (0 : ℚ) < 0 ∧
    ((ClothStep (fun _ _ => []) (fun _ s => s) 0 c8st).particles ⟨0, by decide⟩).position
      = (c8st.particles ⟨0, by decide⟩).position :=
  ⟨by norm_num,
   (((claim_C8 (fun _ _ => []) (fun _ s => s) 0 c8st).2.2 (by norm_num)).2
     ⟨0, by decide⟩).1⟩

/-- The closed-form cofactor (adjugate over determinant) inverse of a 3x3
matrix, following the spec's description of the claimed preconditioner.
For an invertible matrix with columns `a, b, c` the inverse has rows
`(b x c) / det`, `(c x a) / det`, `(a x b) / det`. -/
def mat33CofactorInv (A : b3Mat33) : b3Mat33 :=
  (1 / b3Det A.cx A.cy A.cz) •
    (b3Mat33.mk (b3Cross A.cy A.cz) (b3Cross A.cz A.cx)
      (b3Cross A.cx A.cy)).transpose

/-- A concrete symmetric positive-definite 3x3 block that is not diagonal. -/
def c3D : b3Mat33 := ⟨⟨2, 1, 0⟩, ⟨1, 2, 0⟩, ⟨0, 0, 1⟩⟩

/-- C3 counterexample: `c3D` is positive definite (it passes the
preconditioner's assertions and its cofactor inverse is a genuine inverse),
yet the block the solver computes, `invertDiag c3D = diag(1/2, 1/2, 1)`, is
not the closed-form cofactor inverse the claim states. -/
theorem claim_C3_cex :
    b3ClothSolver.precondAssertOK c3D ∧
    (mat33CofactorInv c3D).mul c3D = b3Mat33.identity ∧
    b3ClothSolver.invertDiag c3D ≠ mat33CofactorInv c3D := by
  refine ⟨?_, ?_, ?_⟩
  · unfold b3ClothSolver.precondAssertOK c3D b3Det b3Cross b3Dot
    norm_num
  · simp only [mat33CofactorInv, c3D, b3Det, b3Cross, b3Dot,
      b3Mat33.transpose, b3Mat33.mul, b3Mat33.mulVec, b3Mat33.identity]
    simp [b3Vec3.ext_iff]
    norm_num
  · intro hEq
    have hx := congrArg (fun M => M.cx.x) hEq
    simp only [b3ClothSolver.invertDiag, mat33CofactorInv, c3D, b3Diagonal3,
      b3Det, b3Cross, b3Dot, b3Mat33.transpose] at hx
    norm_num at hx

/-- C3 (amended): the Jacobi preconditioner inverts only the three diagonal
scalars of each particle's 3x3 diagonal block of `A` (reciprocal-diagonal,
not the full cofactor inverse, with which it agrees exactly on diagonal
blocks), and a block that is not positive definite is an assertion-level
fault: for a diagonal block the assertion holds iff the product of the
diagonal entries is positive. -/
theorem claim_C3 {np : ℕ} (A : b3SymMat33 np) (i : Fin np) (x y z : ℚ)
    (hx : x ≠ 0) (hy : y ≠ 0) (hz : z ≠ 0) :
    b3ClothSolver.solverInvP A i =
      b3Diagonal3 (1 / (A.get i i).cx.x) (1 / (A.get i i).cy.y)
        (1 / (A.get i i).cz.z) ∧
    (b3ClothSolver.invertDiag (b3Diagonal3 x y z)).mul (b3Diagonal3 x y z)
      = b3Mat33.identity ∧
    (b3ClothSolver.precondAssertOK (b3Diagonal3 x y z) ↔ 0 < x * y * z) := by
  refine ⟨rfl, ?_, ?_⟩
  · simp [b3ClothSolver.invertDiag, b3Diagonal3, b3Mat33.mul,
      b3Mat33.mulVec, b3Mat33.identity, b3Vec3.ext_iff, one_div,
      mul_inv_cancel₀, hx, hy, hz]
  · unfold b3ClothSolver.precondAssertOK b3Det b3Diagonal3 b3Cross b3Dot
    simp
    constructor
    · rintro ⟨h, -⟩
      nlinarith [h]
    · intro h
      refine ⟨by nlinarith [h], hx, hy, hz⟩

/-- A concrete 1-particle symmetric system whose diagonal block is `c3D`. -/
def c3A : b3SymMat33 1 := ⟨fun _ _ => c3D⟩

theorem claim_C3_witness :
    (2 : ℚ) ≠ 0 ∧
    (b3ClothSolver.invertDiag (b3Diagonal3 2 3 4)).mul (b3Diagonal3 2 3 4)
      = b3Mat33.identity :=
  ⟨by norm_num,
   (claim_C3 c3A 0 2 3 4 (by norm_num) (by norm_num) (by norm_num)).2.1⟩

/-! ## Lemmas about the unique-edge scan -/

theorem b3EdgeEq_iff (a b : ℕ × ℕ) :
    b3EdgeEq a b = true ↔
      (a.1 = b.1 ∧ a.2 = b.2) ∨ (a.2 = b.1 ∧ a.1 = b.2) := by
  simp [b3EdgeEq]

theorem b3EdgeEq_symm (a b : ℕ × ℕ) : b3EdgeEq a b = b3EdgeEq b a := by
  apply Bool.eq_iff_iff.mpr
  simp only [b3EdgeEq_iff]
  constructor
  · rintro (⟨h1, h2⟩ | ⟨h1, h2⟩)
    · exact Or.inl ⟨h1.symm, h2.symm⟩
    · exact Or.inr ⟨h2.symm, h1.symm⟩
  · rintro (⟨h1, h2⟩ | ⟨h1, h2⟩)
    · exact Or.inl ⟨h1.symm, h2.symm⟩
    · exact Or.inr ⟨h2.symm, h1.symm⟩

theorem b3EdgeEq_trans {a b c : ℕ × ℕ} (h1 : b3EdgeEq a b = true)
    (h2 : b3EdgeEq b c = true) : b3EdgeEq a c = true := by
  simp only [b3EdgeEq_iff] at h1 h2 ⊢
  rcases h1 with ⟨x1, x2⟩ | ⟨x1, x2⟩ <;> rcases h2 with ⟨y1, y2⟩ | ⟨y1, y2⟩ <;>
    omega

theorem b3EdgeEq_refl (a : ℕ × ℕ) : b3EdgeEq a a = true := by
  simp [b3EdgeEq_iff]

/-- The fold appends a sublist of the scanned edges after the accumulator. -/
theorem foldl_addUnique_append (l : List (ℕ × ℕ)) :
    ∀ acc, ∃ s, l.foldl addUniqueEdge acc = acc ++ s ∧ s.Sublist l := by
  induction l with
  | nil => exact fun acc => ⟨[], by simp⟩
  | cons h t ih =>
    intro acc
    rw [List.foldl_cons]
    by_cases hC : acc.any (fun ue => b3EdgeEq ue h) = true
    · rw [show addUniqueEdge acc h = acc from by simp [addUniqueEdge, hC]]
      obtain ⟨s, hs, hsub⟩ := ih acc
      exact ⟨s, hs, hsub.cons h⟩
    · rw [show addUniqueEdge acc h = acc ++ [h] from by
        simp [addUniqueEdge, hC]]
      obtain ⟨s, hs, hsub⟩ := ih (acc ++ [h])
      exact ⟨h :: s, by simpa using hs, hsub.cons₂ h⟩

/-- The kept edges are pairwise distinct as undirected edges. -/
theorem foldl_addUnique_pairwise (l : List (ℕ × ℕ)) :
    ∀ acc, acc.Pairwise (fun a b => b3EdgeEq a b = false) →
      (l.foldl addUniqueEdge acc).Pairwise (fun a b => b3EdgeEq a b = false) := by
  induction l with
  | nil => exact fun acc h => h
  | cons h t ih =>
    intro acc hacc
    rw [List.foldl_cons]
    by_cases hC : acc.any (fun ue => b3EdgeEq ue h) = true
    · rw [show addUniqueEdge acc h = acc from by simp [addUniqueEdge, hC]]
      exact ih acc hacc
    · rw [show addUniqueEdge acc h = acc ++ [h] from by
        simp [addUniqueEdge, hC]]
      refine ih (acc ++ [h]) ?_
      rw [List.pairwise_append]
      refine ⟨hacc, by simp, ?_⟩
      intro a ha b hb
      simp only [List.mem_singleton] at hb
      subst hb
      simp only [List.any_eq_true, not_exists, not_and,
        Bool.not_eq_true] at hC
      exact hC a ha

/-- Every scanned edge has a kept representative (undirected-equal to it). -/
theorem foldl_addUnique_covers (l : List (ℕ × ℕ)) :
    ∀ acc e, ((∃ a ∈ acc, b3EdgeEq a e = true) ∨ e ∈ l) →
      ∃ u ∈ l.foldl addUniqueEdge acc, b3EdgeEq u e = true := by
  induction l with
  | nil =>
    rintro acc e (⟨a, ha, hae⟩ | he)
    · exact ⟨a, ha, hae⟩
    · simp at he
  | cons h t ih =>
    intro acc e he
    rw [List.foldl_cons]
    by_cases hC : acc.any (fun ue => b3EdgeEq ue h) = true
    · rw [show addUniqueEdge acc h = acc from by simp [addUniqueEdge, hC]]
      refine ih acc e ?_
      rcases he with hl | he
      · exact Or.inl hl
      · rcases List.mem_cons.mp he with rfl | ht
        · simp only [List.any_eq_true] at hC
          obtain ⟨a, ha, hae⟩ := hC
          exact Or.inl ⟨a, ha, hae⟩
        · exact Or.inr ht
    · rw [show addUniqueEdge acc h = acc ++ [h] from by
        simp [addUniqueEdge, hC]]
      refine ih (acc ++ [h]) e ?_
      rcases he with ⟨a, ha, hae⟩ | he
      · exact Or.inl ⟨a, by simp [ha], hae⟩
      · rcases List.mem_cons.mp he with rfl | ht
        · exact Or.inl ⟨e, by simp, b3EdgeEq_refl e⟩
        · exact Or.inr ht

/-- Membership in the fold is exactly first-encounter membership: an edge is
kept iff it occurs in the scan with no undirected-equal edge before it (and
no conflict with the accumulator). -/
theorem mem_foldl_addUnique (l : List (ℕ × ℕ)) :
    ∀ acc e, e ∈ l.foldl addUniqueEdge acc ↔
      e ∈ acc ∨ ((∀ a ∈ acc, b3EdgeEq a e = false) ∧
        ∃ l₁ l₂, l = l₁ ++ e :: l₂ ∧ ∀ a ∈ l₁, b3EdgeEq a e = false) := by
  induction l with
  | nil =>
    intro acc e
    simp only [List.foldl_nil]
    constructor
    · exact fun h => Or.inl h
    · rintro (h | ⟨-, l₁, l₂, habs, -⟩)
      · exact h
      · exact absurd habs (by simp)
  | cons h t ih =>
    intro acc e
    rw [List.foldl_cons]
    by_cases hC : acc.any (fun ue => b3EdgeEq ue h) = true
    · rw [show addUniqueEdge acc h = acc from by simp [addUniqueEdge, hC],
        ih acc e]
      simp only [List.any_eq_true] at hC
      obtain ⟨a0, ha0, ha0h⟩ := hC
      constructor
      · rintro (he | ⟨hclean, l₁, l₂, rfl, hfirst⟩)
        · exact Or.inl he
        · refine Or.inr ⟨hclean, h :: l₁, l₂, rfl, ?_⟩
          intro a ha
          rcases List.mem_cons.mp ha with rfl | ha
          · by_contra hcon
            simp only [Bool.not_eq_false] at hcon
            have := b3EdgeEq_trans ha0h hcon
            have hne := hclean a0 ha0
            rw [this] at hne
            exact Bool.true_eq_false.mp hne
          · exact hfirst a ha
      · rintro (he | ⟨hclean, l₁, l₂, hsplit, hfirst⟩)
        · exact Or.inl he
        · rcases l₁ with _ | ⟨a, l₁⟩
          · simp only [List.nil_append, List.cons.injEq] at hsplit
            obtain ⟨rfl, rfl⟩ := hsplit
            have := hclean a0 ha0
            rw [ha0h] at this
            exact absurd this (by simp)
          · simp only [List.cons_append, List.cons.injEq] at hsplit
            obtain ⟨rfl, rfl⟩ := hsplit
            refine Or.inr ⟨hclean, l₁, l₂, rfl, ?_⟩
            intro b hb
            exact hfirst b (List.mem_cons_of_mem _ hb)
    · rw [show addUniqueEdge acc h = acc ++ [h] from by
        simp [addUniqueEdge, hC], ih (acc ++ [h]) e]
      simp only [List.any_eq_true, not_exists, not_and,
        Bool.not_eq_true] at hC
      by_cases heh : e = h
      · subst heh
        constructor
        · intro _
          exact Or.inr ⟨hC, [], t, rfl, by simp⟩
        · intro _
          exact Or.inl (by simp)
      · constructor
        · rintro (hin | ⟨hclean, l₁, l₂, rfl, hfirst⟩)
          · rcases List.mem_append.mp hin with hin | hin
            · exact Or.inl hin
            · exact absurd (List.mem_singleton.mp hin) heh
          · refine Or.inr ⟨?_, h :: l₁, l₂, rfl, ?_⟩
            · intro a ha
              exact hclean a (List.mem_append_left _ ha)
            · intro a ha
              rcases List.mem_cons.mp ha with rfl | ha
              · exact hclean a (List.mem_append_right _ (by simp))
              · exact hfirst a ha
        · rintro (hin | ⟨hclean, l₁, l₂, hsplit, hfirst⟩)
          · exact Or.inl (List.mem_append_left _ hin)
          · rcases l₁ with _ | ⟨a, l₁⟩
            · simp only [List.nil_append, List.cons.injEq] at hsplit
              exact absurd hsplit.1.symm heh
            · simp only [List.cons_append, List.cons.injEq] at hsplit
              obtain ⟨rfl, rfl⟩ := hsplit
              refine Or.inr ⟨?_, l₁, l₂, rfl, ?_⟩
              · intro b hb
                rcases List.mem_append.mp hb with hb | hb
                · exact hclean b hb
                · rw [List.mem_singleton.mp hb]
                  exact hfirst h (by simp)
              · intro b hb
                exact hfirst b (List.mem_cons_of_mem _ hb)

/-- The scanned edge list has three edges per triangle. -/
theorem dirEdges_length (ts : List b3ClothMeshTriangle) :
    (dirEdges ts).length = 3 * ts.length := by
  induction ts with
  | nil => simp [dirEdges]
  | cons t ts ih =>
    have hstep : dirEdges (t :: ts) = triEdges t ++ dirEdges ts := by
      simp [dirEdges]
    rw [hstep, List.length_append, ih]
    simp [triEdges]
    omega

/-- C7: the unique-edge extraction treats edges as undirected, keeps each
distinct undirected edge exactly once at its first encounter in triangle
scan order (the output is a sublist of the scanned edges, pairwise
undirected-distinct, covering every scanned edge, and membership is exactly
first-encounter membership), returns at most `3 T` edges for `T` triangles,
and exactly one structural spring is created per unique edge. -/
theorem claim_C7 (ts : List b3ClothMeshTriangle) :
    (b3FindUniqueEdges ts).length ≤ 3 * ts.length ∧
    (b3FindUniqueEdges ts).Sublist (dirEdges ts) ∧
    (b3FindUniqueEdges ts).Pairwise (fun a b => b3EdgeEq a b = false) ∧
    (∀ e, e ∈ b3FindUniqueEdges ts ↔
      ∃ l₁ l₂, dirEdges ts = l₁ ++ e :: l₂ ∧
        ∀ a ∈ l₁, b3EdgeEq a e = false) ∧
    (∀ e ∈ dirEdges ts, ∃ u ∈ b3FindUniqueEdges ts, b3EdgeEq u e = true) ∧
    structuralSprings ts = b3FindUniqueEdges ts := by
  obtain ⟨s, hs, hsub⟩ := foldl_addUnique_append (dirEdges ts) []
  have hself : b3FindUniqueEdges ts = s := by
    simpa [b3FindUniqueEdges] using hs
  refine ⟨?_, ?_, ?_, ?_, ?_, ?_⟩
  · rw [hself]
    calc s.length ≤ (dirEdges ts).length := hsub.length_le
    _ = 3 * ts.length := dirEdges_length ts
  · rw [hself]; exact hsub
  · exact foldl_addUnique_pairwise (dirEdges ts) [] (by simp)
  · intro e
    rw [show b3FindUniqueEdges ts = (dirEdges ts).foldl addUniqueEdge []
      from rfl, mem_foldl_addUnique]
    simp
  · intro e he
    exact foldl_addUnique_covers (dirEdges ts) [] e (Or.inr he)
  · unfold structuralSprings
    simp

/-- A concrete two-triangle quad mesh. -/
def c7ts : List b3ClothMeshTriangle := [⟨0, 1, 2⟩, ⟨0, 2, 3⟩]

theorem claim_C7_witness :
    ∃ u ∈ b3FindUniqueEdges c7ts, b3EdgeEq u (0, 2) = true :=
  (claim_C7 c7ts).2.2.2.2.1 (0, 2) (by decide)

/-! ## Lemmas about the deepest-penetration scan -/

/-- The body of the deepest-penetration scan for a dynamic particle. -/
def scanStep (best : Option ShapeQuery) (q : ShapeQuery) : Option ShapeQuery :=
  if !q.bodyStatic then best
  else if q.hit ∧ q.out.separation < bestSep best then some q else best

theorem scanShapes_dyn (qs : List ShapeQuery) :
    scanShapes e_dynamicParticle qs = qs.foldl scanStep none := by
  unfold scanShapes
  congr 1

theorem scanShapes_nonDynamic {ptype : b3ParticleType}
    (h : ptype ≠ e_dynamicParticle) (qs : List ShapeQuery) :
    scanShapes ptype qs = none := by
  unfold scanShapes
  have hf : (fun (best : Option ShapeQuery) (q : ShapeQuery) =>
      if ptype ≠ e_dynamicParticle then best
      else if !q.bodyStatic then best
      else if q.hit ∧ q.out.separation < bestSep best then some q else best)
      = fun best _ => best := by
    funext best q
    rw [if_pos h]
  rw [hf]
  induction qs with
  | nil => rfl
  | cons q qs ih =>
    rw [List.foldl_cons]
    exact ih

theorem scanStep_sep_le (st : Option ShapeQuery) (q : ShapeQuery) :
    bestSep (scanStep st q) ≤ bestSep st := by
  unfold scanStep
  split_ifs with h1 h2
  all_goals first
  | exact le_refl _
  | exact le_of_lt h2.2

theorem foldScan_sep_le (qs : List ShapeQuery) :
    ∀ st, bestSep (qs.foldl scanStep st) ≤ bestSep st := by
  induction qs with
  | nil => exact fun st => le_refl _
  | cons q qs ih =>
    intro st
    rw [List.foldl_cons]
    exact le_trans (ih (scanStep st q)) (scanStep_sep_le st q)

theorem foldScan_le_candidates (qs : List ShapeQuery) :
    ∀ st, ∀ q ∈ qs, q.bodyStatic = true → q.hit = true →
      bestSep (qs.foldl scanStep st) ≤ q.out.separation := by
  induction qs with
  | nil => intro st q hq; simp at hq
  | cons q0 qs ih =>
    intro st q hq hs hh
    rw [List.foldl_cons]
    rcases List.mem_cons.mp hq with rfl | hq
    · by_cases hacc : q.hit ∧ q.out.separation < bestSep st
      · have hstep : scanStep st q = some q := by
          simp [scanStep, hs, hacc]
        rw [hstep]
        exact foldScan_sep_le qs (some q)
      · have hstep : scanStep st q = st := by
          simp only [scanStep, hs, Bool.not_true, Bool.false_eq_true,
            if_false]
          rw [if_neg hacc]
        rw [hstep]
        refine le_trans (foldScan_sep_le qs st) ?_
        rw [not_and] at hacc
        exact le_of_not_lt (hacc hh)
    · exact ih (scanStep st q0) q hq hs hh

theorem foldScan_none (qs : List ShapeQuery) :
    ∀ st, qs.foldl scanStep st = none → st = none := by
  induction qs with
  | nil => exact fun st h => h
  | cons q qs ih =>
    intro st h
    rw [List.foldl_cons] at h
    have hstep := ih (scanStep st q) h
    unfold scanStep at hstep
    by_cases h1 : (!q.bodyStatic) = true
    · rw [if_pos h1] at hstep
      exact hstep
    · rw [if_neg h1] at hstep
      by_cases h2 : q.hit = true ∧ q.out.separation < bestSep st
      · rw [if_pos h2] at hstep
        exact absurd hstep (by simp)
      · rw [if_neg h2] at hstep
        exact hstep

theorem foldScan_none_iff (qs : List ShapeQuery) :
    qs.foldl scanStep none = none ↔
      ∀ q ∈ qs, ¬(q.bodyStatic = true ∧ q.hit = true ∧
        q.out.separation < 0) := by
  induction qs with
  | nil => simp
  | cons q qs ih =>
    rw [List.foldl_cons]
    by_cases hs : q.bodyStatic = true
    · by_cases hacc : q.hit ∧ q.out.separation < bestSep none
      · have hstep : scanStep none q = some q := by
          simp [scanStep, hs, hacc]
        rw [hstep]
        constructor
        · intro h
          exact absurd (foldScan_none qs (some q) h) (by simp)
        · intro h
          exact absurd ⟨hs, hacc.1, hacc.2⟩ (h q (by simp))
      · have hstep : scanStep none q = none := by
          simp only [scanStep, hs, Bool.not_true, Bool.false_eq_true,
            if_false]
          rw [if_neg hacc]
        rw [hstep, ih]
        constructor
        · intro h q' hq'
          rcases List.mem_cons.mp hq' with rfl | hq'
          · rintro ⟨-, hh, hsep⟩
            exact hacc ⟨hh, hsep⟩
          · exact h q' hq'
        · intro h q' hq'
          exact h q' (List.mem_cons_of_mem _ hq')
    · have hstep : scanStep none q = none := by
        simp [scanStep, hs]
      rw [hstep, ih]
      constructor
      · intro h q' hq'
        rcases List.mem_cons.mp hq' with rfl | hq'
        · rintro ⟨habs, -⟩
          exact hs habs
        · exact h q' hq'
      · intro h q' hq'
        exact h q' (List.mem_cons_of_mem _ hq')

theorem foldScan_first (qs : List ShapeQuery) :
    ∀ st b, qs.foldl scanStep st = some b →
      st = some b ∨ ∃ l₁ l₂, qs = l₁ ++ b :: l₂ ∧ b.bodyStatic = true ∧
        b.hit = true ∧
        b.out.separation < bestSep (l₁.foldl scanStep st) := by
  induction qs with
  | nil => exact fun st b h => Or.inl h
  | cons q qs ih =>
    intro st b h
    rw [List.foldl_cons] at h
    rcases ih (scanStep st q) b h with hstep | ⟨l₁, l₂, rfl, hs, hh, hsep⟩
    · unfold scanStep at hstep
      split_ifs at hstep with h1 h2
      · exact Or.inl hstep
      · obtain rfl := Option.some.injEq _ _ ▸ hstep
        refine Or.inr ⟨[], qs, rfl, ?_, h2.1, ?_⟩
        · simpa using h1
        · simpa using h2.2
      · exact Or.inl hstep
    · exact Or.inr ⟨q :: l₁, l₂, rfl, hs, hh, hsep⟩

/-- C9: a refresh activates a particle's body contact iff the particle is
dynamic and some tested static shape reports a strictly negative separation
(exact touching at zero, and non-dynamic particles, leave it inactive), and
the kept shape is one with the most negative separation, the first one
encountered winning an exact tie. -/
theorem claim_C9 (pIdx : ℕ) (ptype : b3ParticleType)
    (c0 : b3ParticleBodyContact) (queries : List ShapeQuery) :
    (ptype ≠ e_dynamicParticle →
      (UpdateBodyContact pIdx ptype c0 queries).active = false) ∧
    ((UpdateBodyContact pIdx e_dynamicParticle c0 queries).active = true ↔
      ∃ q ∈ queries, q.bodyStatic = true ∧ q.hit = true ∧
        q.out.separation < 0) ∧
    (∀ q', scanShapes e_dynamicParticle queries = some q' →
      (UpdateBodyContact pIdx e_dynamicParticle c0 queries).s2 = q'.shapeId ∧
      q'.bodyStatic = true ∧ q'.hit = true ∧ q'.out.separation < 0 ∧
      (∀ q ∈ queries, q.bodyStatic = true → q.hit = true →
        q'.out.separation ≤ q.out.separation) ∧
      ∃ l₁ l₂, queries = l₁ ++ q' :: l₂ ∧
        ∀ q ∈ l₁, q.bodyStatic = true → q.hit = true →
          q'.out.separation < q.out.separation) := by
  refine ⟨?_, ?_, ?_⟩
  · intro h
    unfold UpdateBodyContact
    rw [scanShapes_nonDynamic h]
  · unfold UpdateBodyContact
    rw [scanShapes_dyn]
    rcases hres : queries.foldl scanStep none with _ | q'
    · simp only [hres]
      rw [foldScan_none_iff] at hres
      constructor
      · intro habs
        simp at habs
      · rintro ⟨q, hq, hs, hh, hsep⟩
        exact absurd ⟨hs, hh, hsep⟩ (hres q hq)
    · constructor
      · intro _h
        rcases foldScan_first queries none q' hres with habs | ⟨l₁, l₂, rfl, hs, hh, hsep⟩
        · exact absurd habs (by simp)
        · refine ⟨q', by simp, hs, hh, ?_⟩
          exact lt_of_lt_of_le hsep (foldScan_sep_le l₁ none)
      · intro _h
        cases c0.active <;> rfl
  · intro q' hq'
    rw [scanShapes_dyn] at hq'
    rcases foldScan_first queries none q' hq' with habs | ⟨l₁, l₂, hsplit, hs, hh, hsep⟩
    · exact absurd habs (by simp)
    · have hq'neg : q'.out.separation < 0 :=
        lt_of_lt_of_le hsep (foldScan_sep_le l₁ none)
      have hbest : bestSep (queries.foldl scanStep none) = q'.out.separation := by
        rw [hq']; rfl
      refine ⟨?_, hs, hh, hq'neg, ?_, l₁, l₂, hsplit, ?_⟩
      · unfold UpdateBodyContact
        rw [scanShapes_dyn, hq']
        cases c0.active <;> rfl
      · intro q hq hqs hqh
        rw [← hbest]
        exact foldScan_le_candidates queries none q hq hqs hqh
      · intro q hq hqs hqh
        exact lt_of_lt_of_le hsep (foldScan_le_candidates l₁ none q hq hqs hqh)

/-- A previously active contact on shape 1 with accumulated impulses. -/
def c5c0 : b3ParticleBodyContact :=
  ⟨true, 0, 1, ⟨0, 0, 1⟩, 0, 0, ⟨1, 0, 0⟩, ⟨0, 1, 0⟩, 5, ⟨7, 8⟩⟩

/-- A penetrating query against a different shape (shape 2). -/
def c5q : ShapeQuery := ⟨2, true, true, ⟨⟨0, 0, 0⟩, ⟨0, 0, 1⟩, -1⟩, 0⟩

/-- C5 counterexample: (a) a refresh that keeps the contact active but
switches to a different shape (2 instead of 1) still carries the old
accumulated normal impulse forward, so warm-starting from a stale prior
contact on a different shape does happen; (b) a refresh that finds no
penetrating shape marks the record inactive without discarding the
accumulated impulse state. -/
theorem claim_C5_cex :
    ((UpdateBodyContact 0 e_dynamicParticle c5c0 [c5q]).s2 = 2 ∧
      c5c0.s2 = 1 ∧
      (UpdateBodyContact 0 e_dynamicParticle c5c0 [c5q]).normalImpulse = 5) ∧
    ((UpdateBodyContact 0 e_dynamicParticle c5c0 []).active = false ∧
      (UpdateBodyContact 0 e_dynamicParticle c5c0 []).normalImpulse = 5) := by
  have hscan : scanShapes e_dynamicParticle [c5q] = some c5q := by
    rw [scanShapes_dyn]
    show scanStep none c5q = some c5q
    simp [scanStep, c5q, bestSep]
  have hscan0 : scanShapes e_dynamicParticle
      ([] : List ShapeQuery) = none := rfl
  refine ⟨⟨?_, rfl, ?_⟩, ?_, ?_⟩
  · unfold UpdateBodyContact
    rw [hscan]
    rfl
  · unfold UpdateBodyContact
    rw [hscan]
    rfl
  · unfold UpdateBodyContact
    rw [hscan0]
  · unfold UpdateBodyContact
    rw [hscan0]
    rfl

/-- C5 (amended): a refresh that finds no penetrating shape marks the
record inactive, leaving its accumulated impulse fields as they were; a
refresh that activates the contact rebuilds it with zero accumulated
impulses and then carries the previous step's accumulated impulse state
forward exactly when the previous record was active — whatever shape that
record was on — so a contact reactivated after being inactive starts with
zero accumulated impulse. -/
theorem claim_C5 (pIdx : ℕ) (ptype : b3ParticleType)
    (c0 : b3ParticleBodyContact) (queries : List ShapeQuery) :
    (scanShapes ptype queries = none →
      UpdateBodyContact pIdx ptype c0 queries = { c0 with active := false }) ∧
    (c0.active = false → ∀ q', scanShapes ptype queries = some q' →
      (UpdateBodyContact pIdx ptype c0 queries).normalImpulse = 0 ∧
      (UpdateBodyContact pIdx ptype c0 queries).tangentImpulse = ⟨0, 0⟩) ∧
    (c0.active = true → ∀ q', scanShapes ptype queries = some q' →
      (UpdateBodyContact pIdx ptype c0 queries).normalImpulse =
        c0.normalImpulse ∧
      (UpdateBodyContact pIdx ptype c0 queries).tangentImpulse =
        c0.tangentImpulse) := by
  refine ⟨?_, ?_, ?_⟩
  · intro h
    unfold UpdateBodyContact
    rw [h]
  · intro hact q' hq'
    unfold UpdateBodyContact
    rw [hq', hact]
    exact ⟨rfl, rfl⟩
  · intro hact q' hq'
    unfold UpdateBodyContact
    rw [hq', hact]
    exact ⟨rfl, rfl⟩

theorem claim_C5_witness :
    scanShapes e_dynamicParticle ([] : List ShapeQuery) = none ∧
    UpdateBodyContact 0 e_dynamicParticle c5c0 [] =
      { c5c0 with active := false } :=
  ⟨rfl, (claim_C5 0 e_dynamicParticle c5c0 []).1 rfl⟩

theorem claim_C9_witness :
    (UpdateBodyContact 0 e_kinematicParticle c5c0 [c5q]).active = false :=
  (claim_C9 0 e_kinematicParticle c5c0 [c5q]).1 (by simp)

/-! ## Lemmas about the mass computation -/

/-- The area of one triangle of the mesh, under the area function `area3`. -/
def triAreaOf {V : ℕ} (area3 : b3Vec3 → b3Vec3 → b3Vec3 → ℚ)
    (m : ClothMassMesh V) (t : Fin V × Fin V × Fin V) : ℚ :=
  area3 (m.vertices t.1) (m.vertices t.2.1) (m.vertices t.2.2)

theorem sum_massAdd {V : ℕ} (f : Fin V → ℚ) (i : Fin V) (c : ℚ) :
    ∑ v, massAdd f i c v = (∑ v, f v) + c := by
  unfold massAdd
  rw [Finset.sum_update_of_mem (Finset.mem_univ i),
    Finset.sum_eq_sum_diff_singleton_add (Finset.mem_univ i) f]
  ring

theorem sum_massStep {V : ℕ} (area3 : b3Vec3 → b3Vec3 → b3Vec3 → ℚ)
    (m : ClothMassMesh V) (rho : ℚ) (f : Fin V → ℚ)
    (t : Fin V × Fin V × Fin V) :
    ∑ v, massStep area3 m rho f t v = (∑ v, f v) + rho * triAreaOf area3 m t := by
  unfold massStep triAreaOf
  rw [sum_massAdd, sum_massAdd, sum_massAdd]
  ring

theorem massFold_total {V : ℕ} (area3 : b3Vec3 → b3Vec3 → b3Vec3 → ℚ)
    (m : ClothMassMesh V) (rho : ℚ) (l : List (Fin V × Fin V × Fin V)) :
    ∀ f, ∑ v, (l.foldl (massStep area3 m rho) f) v =
      (∑ v, f v) + rho * (l.map (triAreaOf area3 m)).sum := by
  induction l with
  | nil => intro f; simp
  | cons t l ih =>
    intro f
    rw [List.foldl_cons, ih (massStep area3 m rho f t), sum_massStep]
    simp [List.sum_cons]
    ring

theorem massAdd_le {V : ℕ} (f : Fin V → ℚ) (i v : Fin V) (c : ℚ)
    (hc : 0 ≤ c) : f v ≤ massAdd f i c v := by
  unfold massAdd
  rcases eq_or_ne v i with rfl | hne
  · rw [Function.update_same]; linarith
  · rw [Function.update_noteq hne]

theorem massStep_le {V : ℕ} (area3 : b3Vec3 → b3Vec3 → b3Vec3 → ℚ)
    (m : ClothMassMesh V) (rho : ℚ) (f : Fin V → ℚ)
    (t : Fin V × Fin V × Fin V) (v : Fin V)
    (h : 0 ≤ rho * triAreaOf area3 m t) :
    f v ≤ massStep area3 m rho f t v := by
  unfold massStep
  have hc : (0 : ℚ) ≤ (1 / 3) * (rho * triAreaOf area3 m t) := by positivity
  refine le_trans (massAdd_le f t.1 v _ hc) ?_
  refine le_trans (massAdd_le _ t.2.1 v _ hc) ?_
  exact massAdd_le _ t.2.2 v _ hc

theorem massFold_le {V : ℕ} (area3 : b3Vec3 → b3Vec3 → b3Vec3 → ℚ)
    (m : ClothMassMesh V) (rho : ℚ) (l : List (Fin V × Fin V × Fin V))
    (hl : ∀ t ∈ l, 0 ≤ rho * triAreaOf area3 m t) :
    ∀ f v, f v ≤ (l.foldl (massStep area3 m rho) f) v := by
  induction l with
  | nil => intro f v; exact le_refl _
  | cons t l ih =>
    intro f v
    rw [List.foldl_cons]
    refine le_trans (massStep_le area3 m rho f t v (hl t (by simp))) ?_
    exact ih (fun t' ht' => hl t' (List.mem_cons_of_mem _ ht')) _ v

theorem massAdd_pos {V : ℕ} (f : Fin V → ℚ) (i v : Fin V) (c : ℚ)
    (hf : 0 < f v) (hc : 0 ≤ c) : 0 < massAdd f i c v :=
  lt_of_lt_of_le hf (massAdd_le f i v c hc)

theorem massAdd_pos_self {V : ℕ} (f : Fin V → ℚ) (i : Fin V) (c : ℚ)
    (hf : 0 ≤ f i) (hc : 0 < c) : 0 < massAdd f i c i := by
  unfold massAdd
  rw [Function.update_same]
  linarith

theorem massStep_pos {V : ℕ} (area3 : b3Vec3 → b3Vec3 → b3Vec3 → ℚ)
    (m : ClothMassMesh V) (rho : ℚ) (f : Fin V → ℚ)
    (t : Fin V × Fin V × Fin V) (v : Fin V)
    (hpos : 0 < rho * triAreaOf area3 m t)
    (hv : v = t.1 ∨ v = t.2.1 ∨ v = t.2.2) (hf : 0 ≤ f v) :
    0 < massStep area3 m rho f t v := by
  unfold massStep
  have hc : (0 : ℚ) < (1 / 3) * (rho * triAreaOf area3 m t) := by positivity
  set c := (1 / 3) * (rho * triAreaOf area3 m t) with hcdef
  rcases hv with h | h | h
  · subst h
    exact massAdd_pos _ t.2.2 t.1 c
      (massAdd_pos _ t.2.1 t.1 c (massAdd_pos_self f t.1 c hf hc)
        (le_of_lt hc))
      (le_of_lt hc)
  · subst h
    have hg1 : 0 ≤ massAdd f t.1 c t.2.1 :=
      le_trans hf (massAdd_le f t.1 t.2.1 c (le_of_lt hc))
    exact massAdd_pos _ t.2.2 t.2.1 c
      (massAdd_pos_self (massAdd f t.1 c) t.2.1 c hg1 hc) (le_of_lt hc)
  · subst h
    have hg1 : 0 ≤ massAdd f t.1 c t.2.2 :=
      le_trans hf (massAdd_le f t.1 t.2.2 c (le_of_lt hc))
    have hg2 : 0 ≤ massAdd (massAdd f t.1 c) t.2.1 c t.2.2 :=
      le_trans hg1 (massAdd_le _ t.2.1 t.2.2 c (le_of_lt hc))
    exact massAdd_pos_self _ t.2.2 c hg2 hc

theorem massFold_pos {V : ℕ} (area3 : b3Vec3 → b3Vec3 → b3Vec3 → ℚ)
    (m : ClothMassMesh V) (rho : ℚ) (l : List (Fin V × Fin V × Fin V))
    (hl : ∀ t ∈ l, 0 ≤ rho * triAreaOf area3 m t)
    (t0 : Fin V × Fin V × Fin V) (ht0 : t0 ∈ l)
    (hpos : 0 < rho * triAreaOf area3 m t0) (v : Fin V)
    (hv : v = t0.1 ∨ v = t0.2.1 ∨ v = t0.2.2) :
    ∀ f, 0 ≤ f v → 0 < (l.foldl (massStep area3 m rho) f) v := by
  induction l with
  | nil => exact absurd ht0 (by simp)
  | cons t l ih =>
    intro f hf
    rw [List.foldl_cons]
    rcases List.mem_cons.mp ht0 with rfl | ht0'
    · refine lt_of_lt_of_le (massStep_pos area3 m rho f t0 v hpos hv hf) ?_
      exact massFold_le area3 m rho l
        (fun t' ht' => hl t' (List.mem_cons_of_mem _ ht')) _ v
    · refine ih (fun t' ht' => hl t' (List.mem_cons_of_mem _ ht')) ht0'
        (massStep area3 m rho f t) ?_
      exact le_trans hf (massStep_le area3 m rho f t v (hl t (by simp)))

/-- C6: each triangle distributes `density * area`, one third to each of its
three vertices, so the total particle mass is exactly `density` times the
total surface area (for any area function); with positive density, positive
triangle areas and every vertex used by some triangle, every particle mass
is strictly positive and the construction-time assertions hold; a zero or
negative triangle area makes the assertions fail. -/
theorem claim_C6 {V : ℕ} (area3 : b3Vec3 → b3Vec3 → b3Vec3 → ℚ)
    (m : ClothMassMesh V) (rho : ℚ) :
    (∑ v, ComputeMass area3 m rho v =
      rho * (m.triangles.map (triAreaOf area3 m)).sum) ∧
    (0 < rho → (∀ t ∈ m.triangles, 0 < triAreaOf area3 m t) →
      (∀ v : Fin V, ∃ t ∈ m.triangles,
        v = t.1 ∨ v = t.2.1 ∨ v = t.2.2) →
      ComputeMassAssertOK area3 m rho) ∧
    ((∃ t ∈ m.triangles, triAreaOf area3 m t ≤ 0) →
      ¬ ComputeMassAssertOK area3 m rho) := by
  refine ⟨?_, ?_, ?_⟩
  · unfold ComputeMass
    rw [massFold_total]
    simp
  · intro hrho harea hcover
    constructor
    · exact fun t ht => harea t ht
    · intro v
      obtain ⟨t0, ht0, hv⟩ := hcover v
      unfold ComputeMass
      exact massFold_pos area3 m rho m.triangles
        (fun t' ht' => le_of_lt (mul_pos hrho (harea t' ht')))
        t0 ht0 (mul_pos hrho (harea t0 ht0)) v hv (fun _ => 0) (le_refl 0)
  · rintro ⟨t, ht, hle⟩ ⟨h1, -⟩
    exact absurd (h1 t ht) (not_lt.mpr hle)

/-- A concrete single-triangle mesh over three vertices. -/
def c6m : ClothMassMesh 3 :=
  { vertices := fun _ => 0, triangles := [(0, 1, 2)] }

/-- A constant area function assigning area 2 to every triangle. -/
def c6area : b3Vec3 → b3Vec3 → b3Vec3 → ℚ := fun _ _ _ => 2

theorem claim_C6_witness :
    ComputeMassAssertOK c6area c6m 3 :=
  (claim_C6 c6area c6m 3).2.1 (by norm_num)
    (by intro t ht; simp [c6m] at ht; subst ht; norm_num [triAreaOf, c6area])
    (by decide)

/-! ## Lemmas about the assembled linear system -/

theorem b3SymMat33.get_of_le {n : ℕ} (A : b3SymMat33 n) {i j : Fin n}
    (h : i ≤ j) : A.get i j = A.upper i j := if_pos h

theorem b3SymMat33.get_of_not_le {n : ℕ} (A : b3SymMat33 n) {i j : Fin n}
    (h : ¬ i ≤ j) : A.get i j = (A.upper j i).transpose := if_neg h

theorem foldBias_eq {np : ℕ} (l : List (b3ParticleContact np)) :
    ∀ (f : b3DenseVec3 np) (i : Fin np),
      (l.foldl (fun sy c =>
        Function.update sy c.p1 (sy c.p1 - c.s • c.normal)) f) i =
      f i - ((l.filter (fun c => c.p1 = i)).map
        (fun c => c.s • c.normal)).sum := by
  induction l with
  | nil => intro f i; simp
  | cons c l ih =>
    intro f i
    rw [List.foldl_cons, ih]
    by_cases hc : c.p1 = i
    · have hupd : Function.update f c.p1 (f c.p1 - c.s • c.normal) i =
        f i - c.s • c.normal := by
        subst hc
        rw [Function.update_same]
      rw [hupd]
      have hfil : (c :: l).filter (fun c' => decide (c'.p1 = i)) =
          c :: l.filter (fun c' => decide (c'.p1 = i)) := by
        simp [List.filter_cons, hc]
      rw [hfil, List.map_cons, List.sum_cons, sub_sub]
    · have hupd : Function.update f c.p1 (f c.p1 - c.s • c.normal) i =
        f i := Function.update_noteq (Ne.symm hc) _ f
      rw [hupd]
      have hfil : (c :: l).filter (fun c' => decide (c'.p1 = i)) =
          l.filter (fun c' => decide (c'.p1 = i)) := by
        simp [List.filter_cons, hc]
      rw [hfil]

/-- C2: with `h = dt`, the assembled block matrix satisfies
`A(i,i) = mass_i * I - h*dfdv(i,i) - h^2*dfdx(i,i)` and
`A(i,j) = -h*dfdv(i,j) - h^2*dfdx(i,j)` for `i ≠ j` (stored on the upper
triangle, the lower triangle read as the mirrored transpose), and the right
side satisfies `b = h * (f0 + h*(dfdx*v) + dfdx*y)`, where `f0` adds
`mass * gravity` only to dynamic particles and `y` is the pending
translation biased by `-separation * normal` for each contact handed to the
solver. -/
theorem claim_C2 {np : ℕ} (particles : Fin np → b3Particle) (dt : ℚ)
    (dfdx dfdv : b3SymMat33 np) (x v : b3DenseVec3 np)
    (contacts : List (b3ParticleContact np)) (gravity : b3Vec3)
    (i j : Fin np) :
    ((b3ClothSolver.Compute_A_b particles dt dfdx dfdv
        (b3ClothSolver.gatherForce particles gravity) x v
        (b3ClothSolver.biasTranslation particles contacts)).1.get i j
      = (if i = j then b3Diagonal (particles i).mass else b3Mat33.zero)
        + ((-dt) • dfdv.get i j + (-(dt * dt)) • dfdx.get i j)) ∧
    ((b3ClothSolver.Compute_A_b particles dt dfdx dfdv
        (b3ClothSolver.gatherForce particles gravity) x v
        (b3ClothSolver.biasTranslation particles contacts)).2 i
      = dt • (b3ClothSolver.gatherForce particles gravity i
          + dt • (∑ k, (dfdx.get i k).mulVec (v k))
          + ∑ k, (dfdx.get i k).mulVec
              (b3ClothSolver.biasTranslation particles contacts k))) ∧
    (b3ClothSolver.gatherForce particles gravity i
      = (particles i).force +
        (if (particles i).type = e_dynamicParticle
          then (particles i).mass • gravity else 0)) ∧
    (b3ClothSolver.biasTranslation particles contacts i
      = (particles i).translation -
        ((contacts.filter (fun c => c.p1 = i)).map
          (fun c => c.s • c.normal)).sum) := by
  refine ⟨?_, rfl, rfl, foldBias_eq contacts _ i⟩
  by_cases hij : i ≤ j
  · rw [b3SymMat33.get_of_le _ hij]
    rfl
  · rw [b3SymMat33.get_of_not_le _ hij]
    have hji : j ≤ i := le_of_not_le hij
    have hne : ¬ j = i := fun h => hij (le_of_eq h.symm)
    have hne' : ¬ i = j := fun h => hne h.symm
    show ((if j = i then b3Diagonal (particles j).mass else b3Mat33.zero)
      + ((-dt) • dfdv.get j i + (-(dt * dt)) • dfdx.get j i)).transpose = _
    rw [if_neg hne, if_neg hne', b3Mat33.transpose_add,
      b3Mat33.transpose_add, b3Mat33.transpose_smul, b3Mat33.transpose_smul,
      b3Mat33.transpose_zero, b3SymMat33.get_of_le dfdv hji,
      b3SymMat33.get_of_le dfdx hji, b3SymMat33.get_of_not_le dfdv hij,
      b3SymMat33.get_of_not_le dfdx hij]

/-! ## Lemmas about the MPCG main loop -/

namespace b3ClothSolver

theorem mpcgLoop_le {np : ℕ} (A : b3SymMat33 np) (S invP : b3DiagMat33 np)
    (bd : ℚ) : ∀ (fuel : ℕ) (st : MPCGState np),
    (mpcgLoop A S invP bd fuel st).2 ≤ fuel := by
  intro fuel
  induction fuel with
  | zero => intro st; exact le_refl 0
  | succ fuel ih =>
    intro st
    unfold mpcgLoop
    by_cases h : mpcgConverged bd st
    · rw [if_pos h]
      exact Nat.zero_le _
    · rw [if_neg h]
      exact Nat.succ_le_succ (ih (mpcgStep A S invP st))

theorem mpcgLoop_iterate {np : ℕ} (A : b3SymMat33 np)
    (S invP : b3DiagMat33 np) (bd : ℚ) :
    ∀ (fuel : ℕ) (st : MPCGState np),
    (mpcgLoop A S invP bd fuel st).1 =
      (mpcgStep A S invP)^[(mpcgLoop A S invP bd fuel st).2] st := by
  intro fuel
  induction fuel with
  | zero => intro st; rfl
  | succ fuel ih =>
    intro st
    unfold mpcgLoop
    by_cases h : mpcgConverged bd st
    · rw [if_pos h]
      rfl
    · rw [if_neg h]
      simp only
      rw [ih (mpcgStep A S invP st), Function.iterate_succ_apply]

theorem mpcgLoop_conv {np : ℕ} (A : b3SymMat33 np)
    (S invP : b3DiagMat33 np) (bd : ℚ) :
    ∀ (fuel : ℕ) (st : MPCGState np),
    (mpcgLoop A S invP bd fuel st).2 < fuel →
      mpcgConverged bd (mpcgLoop A S invP bd fuel st).1 := by
  intro fuel
  induction fuel with
  | zero => intro st h; exact absurd h (Nat.not_lt_zero _)
  | succ fuel ih =>
    intro st
    unfold mpcgLoop
    by_cases h : mpcgConverged bd st
    · rw [if_pos h]
      exact fun _ => h
    · rw [if_neg h]
      simp only
      intro hlt
      exact ih (mpcgStep A S invP st) (Nat.lt_of_succ_lt_succ hlt)

theorem mpcgLoop_min {np : ℕ} (A : b3SymMat33 np)
    (S invP : b3DiagMat33 np) (bd : ℚ) :
    ∀ (fuel : ℕ) (st : MPCGState np) (j : ℕ),
    j < (mpcgLoop A S invP bd fuel st).2 →
      ¬ mpcgConverged bd ((mpcgStep A S invP)^[j] st) := by
  intro fuel
  induction fuel with
  | zero => intro st j h; exact absurd h (Nat.not_lt_zero _)
  | succ fuel ih =>
    intro st j
    unfold mpcgLoop
    by_cases h : mpcgConverged bd st
    · rw [if_pos h]
      intro hj
      exact absurd hj (Nat.not_lt_zero _)
    · rw [if_neg h]
      simp only
      intro hj
      rcases j with _ | j
      · exact h
      · rw [Function.iterate_succ_apply]
        exact ih (mpcgStep A S invP st) j (Nat.lt_of_succ_lt_succ hj)

theorem mpcgLoop_succ_of_conv {np : ℕ} (A : b3SymMat33 np)
    (S invP : b3DiagMat33 np) (bd : ℚ) (fuel : ℕ) (st : MPCGState np)
    (h : mpcgConverged bd st) :
    mpcgLoop A S invP bd (fuel + 1) st = (st, 0) := by
  unfold mpcgLoop
  rw [if_pos h]

end b3ClothSolver

/-- C4: the MPCG iteration loop performs at most 100 iterations for every
input; the returned iterate is exactly the iteration count applied to the
initial state (so hitting the cap still returns the best iterate found, not
an error); it stops before the cap exactly when the preconditioned residual
measure `delta_new` becomes at most `tolerance^2 * b_delta` with
`b_delta` the preconditioned norm of `b_hat = S*(b - A*(I-S)*z)`; and
`tolerance = 1e-4` with a hard cap of 100. -/
theorem claim_C4 {np : ℕ} (A : b3SymMat33 np) (b : b3DenseVec3 np)
    (S : b3DiagMat33 np) (z y : b3DenseVec3 np) :
    (b3ClothSolver.mpcgSolve A b S z y).2 ≤ 100 ∧
    (b3ClothSolver.mpcgSolve A b S z y).1 =
      ((b3ClothSolver.mpcgStep A S
        (b3ClothSolver.solverInvP A))^[(b3ClothSolver.mpcgSolve A b S z y).2]
        (b3ClothSolver.mpcgInit A b S z y)).x ∧
    ((b3ClothSolver.mpcgSolve A b S z y).2 < 100 →
      b3ClothSolver.mpcgConverged (b3ClothSolver.mpcgBDelta A b S z)
        ((b3ClothSolver.mpcgStep A S
          (b3ClothSolver.solverInvP A))^[(b3ClothSolver.mpcgSolve A b S z y).2]
          (b3ClothSolver.mpcgInit A b S z y))) ∧
    (∀ j < (b3ClothSolver.mpcgSolve A b S z y).2,
      ¬ b3ClothSolver.mpcgConverged (b3ClothSolver.mpcgBDelta A b S z)
        ((b3ClothSolver.mpcgStep A S (b3ClothSolver.solverInvP A))^[j]
          (b3ClothSolver.mpcgInit A b S z y))) ∧
    b3ClothSolver.tolerance = 1 / 10000 ∧
    b3ClothSolver.max_iterations = 100 := by
  have hdef : b3ClothSolver.mpcgSolve A b S z y =
      ((b3ClothSolver.mpcgLoop A S (b3ClothSolver.solverInvP A)
        (b3ClothSolver.mpcgBDelta A b S z) b3ClothSolver.max_iterations
        (b3ClothSolver.mpcgInit A b S z y)).1.x,
       (b3ClothSolver.mpcgLoop A S (b3ClothSolver.solverInvP A)
        (b3ClothSolver.mpcgBDelta A b S z) b3ClothSolver.max_iterations
        (b3ClothSolver.mpcgInit A b S z y)).2) := rfl
  rw [hdef]
  refine ⟨b3ClothSolver.mpcgLoop_le _ _ _ _ _ _, ?_, ?_, ?_, rfl, rfl⟩
  · rw [b3ClothSolver.mpcgLoop_iterate]
  · intro hlt
    rw [← b3ClothSolver.mpcgLoop_iterate]
    exact b3ClothSolver.mpcgLoop_conv _ _ _ _ _ _ hlt
  · intro j hj
    exact b3ClothSolver.mpcgLoop_min _ _ _ _ _ _ j hj

@[simp] theorem b3Mat33_mulVec_zero (A : b3Mat33) : A.mulVec 0 = 0 := by
  simp [b3Mat33.mulVec, b3Vec3.ext_iff]

@[simp] theorem b3Dot_zero_left (v : b3Vec3) : b3Dot 0 v = 0 := by
  simp [b3Dot]

@[simp] theorem b3Dot_zero_right (v : b3Vec3) : b3Dot v 0 = 0 := by
  simp [b3Dot]

/-- The all-zero dense vector on one particle. -/
def c4z : b3DenseVec3 1 := fun _ => 0

theorem c4_conv : b3ClothSolver.mpcgConverged
    (b3ClothSolver.mpcgBDelta c3A c4z (b3DiagMat33.identity 1) c4z)
    (b3ClothSolver.mpcgInit c3A c4z (b3DiagMat33.identity 1) c4z c4z) := by
  unfold b3ClothSolver.mpcgConverged b3ClothSolver.mpcgInit
    b3ClothSolver.mpcgBDelta
  simp [b3DiagMat33.mulVec, b3DiagMat33.identity, b3SymMat33.mulVec,
    b3DotDense, c4z, b3ClothSolver.tolerance, Fin.sum_univ_one,
    b3Mat33.mulVec, b3Dot, b3ClothSolver.solverInvP,
    b3ClothSolver.invertDiag, b3SymMat33.diagonal, b3SymMat33.get,
    c3A, c3D, b3Diagonal3, b3Mat33.identity]

theorem c4_its :
    (b3ClothSolver.mpcgSolve c3A c4z (b3DiagMat33.identity 1) c4z c4z).2
      = 0 := by
  have h : b3ClothSolver.mpcgSolve c3A c4z (b3DiagMat33.identity 1) c4z c4z =
      ((b3ClothSolver.mpcgLoop c3A (b3DiagMat33.identity 1)
        (b3ClothSolver.solverInvP c3A)
        (b3ClothSolver.mpcgBDelta c3A c4z (b3DiagMat33.identity 1) c4z)
        b3ClothSolver.max_iterations
        (b3ClothSolver.mpcgInit c3A c4z (b3DiagMat33.identity 1) c4z c4z)).1.x,
       (b3ClothSolver.mpcgLoop c3A (b3DiagMat33.identity 1)
        (b3ClothSolver.solverInvP c3A)
        (b3ClothSolver.mpcgBDelta c3A c4z (b3DiagMat33.identity 1) c4z)
        b3ClothSolver.max_iterations
        (b3ClothSolver.mpcgInit c3A c4z (b3DiagMat33.identity 1) c4z c4z)).2)
      := rfl
  rw [h, show b3ClothSolver.max_iterations = 99 + 1 from rfl,
    b3ClothSolver.mpcgLoop_succ_of_conv _ _ _ _ _ _ c4_conv]

theorem claim_C4_witness :
    (b3ClothSolver.mpcgSolve c3A c4z (b3DiagMat33.identity 1) c4z c4z).2
      < 100 ∧
    b3ClothSolver.mpcgConverged
      (b3ClothSolver.mpcgBDelta c3A c4z (b3DiagMat33.identity 1) c4z)
      ((b3ClothSolver.mpcgStep c3A (b3DiagMat33.identity 1)
        (b3ClothSolver.solverInvP
          c3A))^[(b3ClothSolver.mpcgSolve c3A c4z (b3DiagMat33.identity 1)
            c4z c4z).2]
        (b3ClothSolver.mpcgInit c3A c4z (b3DiagMat33.identity 1) c4z c4z)) :=
  have h100 : (b3ClothSolver.mpcgSolve c3A c4z (b3DiagMat33.identity 1)
      c4z c4z).2 < 100 := by rw [c4_its]; norm_num
  ⟨h100,
   (claim_C4 c3A c4z (b3DiagMat33.identity 1) c4z c4z).2.2.1 h100⟩

/-! ## The constraint-subspace invariant of the MPCG iteration -/

@[simp] theorem b3Mat33_sub_zero (A : b3Mat33) : A - b3Mat33.zero = A := by
  cases A with | mk acx acy acz =>
  cases acx; cases acy; cases acz
  simp [b3Mat33.zero, b3Vec3.zero, b3Vec3.ext_iff]

theorem b3Mat33_zero_mul_zero :
    b3Mat33.zero.mul b3Mat33.zero = b3Mat33.zero := by
  simp [b3Mat33.mul, b3Mat33.zero, b3Vec3.zero, b3Mat33.mulVec,
    b3Vec3.ext_iff]

@[simp] theorem b3Mat33_identity_sub_zero :
    b3Mat33.identity - b3Mat33.zero = b3Mat33.identity := by
  simp [b3Mat33.identity, b3Mat33.zero, b3Vec3.zero, b3Vec3.ext_iff]

@[simp] theorem smul_zero_vec (c : ℚ) : c • (0 : b3Vec3) = 0 := by
  simp [b3Vec3.ext_iff]

/-- A projection block annihilates its own range after `I - S`. -/
theorem proj_kill (M : b3Mat33) (h : M.mul M = M) (w : b3Vec3) :
    (b3Mat33.identity - M).mulVec (M.mulVec w) = 0 := by
  rw [← b3Mat33.mulVec_mul, b3Mat33.sub_mul, b3Mat33.identity_mul, h,
    b3Mat33.sub_self_eq_zero, b3Mat33.zero_mulVec]

/-- `I - S` is itself idempotent when `S` is. -/
theorem proj_keep (M : b3Mat33) (h : M.mul M = M) (w : b3Vec3) :
    (b3Mat33.identity - M).mulVec ((b3Mat33.identity - M).mulVec w) =
      (b3Mat33.identity - M).mulVec w := by
  rw [← b3Mat33.mulVec_mul, b3Mat33.sub_mul, b3Mat33.identity_mul,
    b3Mat33.mul_sub, b3Mat33.mul_identity, h, b3Mat33.sub_self_eq_zero,
    b3Mat33_sub_zero]

/-- Every MPCG iterate keeps `(I - S_j) x_j = (I - S_j) z_j` and keeps the
search direction in the range of `S_j`, at every particle `j` whose
projection block is idempotent. -/
theorem mpcg_iterate_invariant {np : ℕ} (A : b3SymMat33 np)
    (b : b3DenseVec3 np) (S invP : b3DiagMat33 np) (z y : b3DenseVec3 np)
    (j : Fin np) (h : (S j).mul (S j) = S j) : ∀ k : ℕ,
    (b3Mat33.identity - S j).mulVec
        (((b3ClothSolver.mpcgStep A S invP)^[k]
          (b3ClothSolver.mpcgInit A b S z y)).x j)
      = (b3Mat33.identity - S j).mulVec (z j) ∧
    (b3Mat33.identity - S j).mulVec
        (((b3ClothSolver.mpcgStep A S invP)^[k]
          (b3ClothSolver.mpcgInit A b S z y)).p j)
      = 0 := by
  intro k
  induction k with
  | zero =>
    constructor
    · have hx0 : (b3ClothSolver.mpcgInit A b S z y).x j =
          (S j).mulVec (y j) + (b3Mat33.identity - S j).mulVec (z j) := rfl
      rw [Function.iterate_zero_apply, hx0, b3Mat33.mulVec_add,
        proj_kill _ h, proj_keep _ h, zero_add]
    · rw [Function.iterate_zero_apply]
      exact proj_kill (S j) h _
  | succ k ih =>
    rw [Function.iterate_succ_apply']
    set st := (b3ClothSolver.mpcgStep A S invP)^[k]
      (b3ClothSolver.mpcgInit A b S z y) with hst
    obtain ⟨ih1, ih2⟩ := ih
    constructor
    · have hx : (b3ClothSolver.mpcgStep A S invP st).x j = st.x j +
          (st.delta_new / b3DotDense st.p
            (b3DiagMat33.mulVec S (A.mulVec st.p))) • st.p j := rfl
      rw [hx, b3Mat33.mulVec_add, b3Mat33.mulVec_smul, ih2, smul_zero_vec,
        add_zero, ih1]
    · exact proj_kill (S j) h _

/-! ## The projector at a zero-dof particle -/

namespace b3ClothSolver

theorem contactConstraint_i1 {np : ℕ} (pc : b3ParticleContact np) :
    (contactConstraint pc).i1 = pc.p1 := by
  unfold contactConstraint
  split_ifs <;> rfl

theorem applyConstraint_other {np : ℕ}
    (Sz : b3DiagMat33 np × b3DenseVec3 np)
    (ac : b3AccelerationConstraint np) (i : Fin np) (h : ac.i1 ≠ i) :
    (applyConstraint Sz ac).1 i = Sz.1 i ∧
    (applyConstraint Sz ac).2 i = Sz.2 i := by
  have hu : ∀ (f : b3DiagMat33 np) (M : b3Mat33),
      Function.update f ac.i1 M i = f i :=
    fun f M => Function.update_noteq (Ne.symm h) _ _
  have hz : Function.update Sz.2 ac.i1 ac.z i = Sz.2 i :=
    Function.update_noteq (Ne.symm h) _ _
  unfold applyConstraint
  refine ⟨?_, hz⟩
  by_cases h0 : ac.ndof = 0 <;> by_cases h1 : ac.ndof = 1 <;>
    by_cases h2 : ac.ndof = 2 <;> simp [h0, h1, h2, hu]

theorem applyConstraint_zero_dof {np : ℕ}
    (Sz : b3DiagMat33 np × b3DenseVec3 np)
    (ac : b3AccelerationConstraint np) (h0 : ac.ndof = 0) :
    (applyConstraint Sz ac).1 ac.i1 = b3Mat33.zero ∧
    (applyConstraint Sz ac).2 ac.i1 = ac.z := by
  unfold applyConstraint
  simp [h0, Function.update_same]

theorem foldl_applyConstraint_other {np : ℕ}
    (l : List (b3AccelerationConstraint np)) (i : Fin np)
    (h : ∀ ac ∈ l, ac.i1 ≠ i) :
    ∀ Sz, (l.foldl applyConstraint Sz).1 i = Sz.1 i ∧
      (l.foldl applyConstraint Sz).2 i = Sz.2 i := by
  induction l with
  | nil => exact fun Sz => ⟨rfl, rfl⟩
  | cons ac l ih =>
    intro Sz
    rw [List.foldl_cons]
    obtain ⟨h1, h2⟩ := ih (fun a ha => h a (List.mem_cons_of_mem _ ha))
      (applyConstraint Sz ac)
    obtain ⟨g1, g2⟩ := applyConstraint_other Sz ac i (h ac (by simp))
    exact ⟨h1.trans g1, h2.trans g2⟩

theorem Compute_S_z_zero_dof {np : ℕ}
    (l : List (b3AccelerationConstraint np))
    (ac : b3AccelerationConstraint np)
    (l₁ l₂ : List (b3AccelerationConstraint np))
    (hsplit : l = l₁ ++ ac :: l₂) (h0 : ac.ndof = 0) (hz : ac.z = 0)
    (h2 : ∀ a ∈ l₂, a.i1 ≠ ac.i1) :
    (Compute_S_z l).1 ac.i1 = b3Mat33.zero ∧
    (Compute_S_z l).2 ac.i1 = 0 := by
  unfold Compute_S_z
  subst hsplit
  rw [List.foldl_append, List.foldl_cons]
  obtain ⟨hS, hzz⟩ := foldl_applyConstraint_other l₂ ac.i1 h2
    (applyConstraint ((l₁.foldl applyConstraint
      (b3DiagMat33.identity np, b3DenseVec3.zero np))) ac)
  obtain ⟨gS, gz⟩ := applyConstraint_zero_dof
    (l₁.foldl applyConstraint (b3DiagMat33.identity np, b3DenseVec3.zero np))
    ac h0
  exact ⟨hS.trans gS, (hzz.trans gz).trans hz⟩

theorem initializeConstraints_zero_dof {np : ℕ}
    (particles : Fin np → b3Particle)
    (contacts : List (b3ParticleContact np)) (i : Fin np)
    (hnd : (particles i).type ≠ e_dynamicParticle)
    (hnc : ∀ c ∈ contacts, c.p1 ≠ i) :
    ∃ l₁ l₂, initializeConstraints particles contacts =
      l₁ ++ (⟨i, 0, 0, 0, 0⟩ : b3AccelerationConstraint np) :: l₂ ∧
      ∀ a ∈ l₂, a.i1 ≠ i := by
  set g := fun j : Fin np =>
    if (particles j).type ≠ e_dynamicParticle then
      some (⟨j, 0, 0, 0, 0⟩ : b3AccelerationConstraint np)
    else none with hg
  have hgdef : initializeConstraints particles contacts =
      (List.finRange np).filterMap g ++ contacts.map contactConstraint := rfl
  have hshape : ∀ a ∈ (List.finRange np).filterMap g,
      a = (⟨a.i1, 0, 0, 0, 0⟩ : b3AccelerationConstraint np) := by
    intro a ha
    obtain ⟨j, -, hj⟩ := List.mem_filterMap.mp ha
    have hj' : (if (particles j).type ≠ e_dynamicParticle then
        some (⟨j, 0, 0, 0, 0⟩ : b3AccelerationConstraint np) else none)
        = some a := hj
    by_cases hjt : (particles j).type ≠ e_dynamicParticle
    · rw [if_pos hjt] at hj'
      have hja := Option.some.inj hj'
      rw [← hja]
    · rw [if_neg hjt] at hj'
      exact absurd hj' (by simp)
  have hmem : (⟨i, 0, 0, 0, 0⟩ : b3AccelerationConstraint np)
      ∈ (List.finRange np).filterMap g := by
    refine List.mem_filterMap.mpr ⟨i, List.mem_finRange i, ?_⟩
    rw [hg]
    simp only [if_pos hnd]
  have hnodup : ((List.finRange np).filterMap g).Nodup := by
    refine (List.nodup_finRange np).filterMap ?_
    intro a a' b hb hb'
    have hb2 : (if (particles a).type ≠ e_dynamicParticle then
        some (⟨a, 0, 0, 0, 0⟩ : b3AccelerationConstraint np) else none)
        = some b := Option.mem_def.mp hb
    have hb2' : (if (particles a').type ≠ e_dynamicParticle then
        some (⟨a', 0, 0, 0, 0⟩ : b3AccelerationConstraint np) else none)
        = some b := Option.mem_def.mp hb'
    have ha : b.i1 = a := by
      by_cases h : (particles a).type ≠ e_dynamicParticle
      · rw [if_pos h] at hb2
        rw [← Option.some.inj hb2]
      · rw [if_neg h] at hb2
        exact absurd hb2 (by simp)
    have ha' : b.i1 = a' := by
      by_cases h : (particles a').type ≠ e_dynamicParticle
      · rw [if_pos h] at hb2'
        rw [← Option.some.inj hb2']
      · rw [if_neg h] at hb2'
        exact absurd hb2' (by simp)
    exact ha ▸ ha'
  obtain ⟨l₁, l₂, hsplit⟩ := List.append_of_mem hmem
  refine ⟨l₁, l₂ ++ contacts.map contactConstraint, ?_, ?_⟩
  · rw [hgdef, hsplit]
    simp [List.append_assoc]
  · intro a ha
    rcases List.mem_append.mp ha with ha | ha
    · intro habs
      have hal : a ∈ (List.finRange np).filterMap g := by
        rw [hsplit]
        exact List.mem_append_right _ (List.mem_cons_of_mem _ ha)
      have ha_eq := hshape a hal
      rw [habs] at ha_eq
      have : a ∈ l₂ := ha
      rw [ha_eq] at this
      have hnodup2 : ((⟨i, 0, 0, 0, 0⟩ : b3AccelerationConstraint np)
          :: l₂).Nodup := by
        rw [hsplit] at hnodup
        exact (List.Nodup.of_append_right hnodup)
      exact (List.nodup_cons.mp hnodup2).1 this
    · obtain ⟨c, hc, rfl⟩ := List.mem_map.mp ha
      rw [contactConstraint_i1]
      exact hnc c hc

/-! ## Decomposition of the outer solve -/

/-- The initial solver data of one outer `Solve` call. -/
def solveSd0 {np : ℕ} (particles : Fin np → b3Particle) (dt : ℚ)
    (gravity : b3Vec3) : b3ClothSolverData np :=
  ⟨fun i => (particles i).position, fun i => (particles i).velocity,
    gatherForce particles gravity, b3SymMat33.zero np, b3SymMat33.zero np,
    dt, 1 / dt⟩

/-- The solver data after the force `Initialize` and `Apply` passes. -/
def solveSd2 {np : ℕ} (particles : Fin np → b3Particle)
    (forces : List (b3Force np)) (dt : ℚ) (gravity : b3Vec3) :
    b3ClothSolverData np :=
  forces.foldl (fun sd fo => fo.Apply sd)
    (forces.foldl (fun sd fo => fo.Initialize sd)
      (solveSd0 particles dt gravity))

/-- The projector and target built by one outer `Solve` call. -/
def solveSz {np : ℕ} (particles : Fin np → b3Particle)
    (contacts : List (b3ParticleContact np)) :
    b3DiagMat33 np × b3DenseVec3 np :=
  Compute_S_z (initializeConstraints particles contacts)

/-- The assembled system of one outer `Solve` call. -/
def solveAb {np : ℕ} (particles : Fin np → b3Particle)
    (forces : List (b3Force np)) (contacts : List (b3ParticleContact np))
    (dt : ℚ) (gravity : b3Vec3) : b3SymMat33 np × b3DenseVec3 np :=
  Compute_A_b particles (solveSd2 particles forces dt gravity).dt
    (solveSd2 particles forces dt gravity).dfdx
    (solveSd2 particles forces dt gravity).dfdv
    (solveSd2 particles forces dt gravity).f
    (solveSd2 particles forces dt gravity).x
    (solveSd2 particles forces dt gravity).v
    (biasTranslation particles contacts)

/-- The MPCG solution and iteration count of one outer `Solve` call. -/
def solveXits {np : ℕ} (particles : Fin np → b3Particle)
    (forces : List (b3Force np)) (contacts : List (b3ParticleContact np))
    (dt : ℚ) (gravity : b3Vec3) : b3DenseVec3 np × ℕ :=
  mpcgSolve (solveAb particles forces contacts dt gravity).1
    (solveAb particles forces contacts dt gravity).2
    (solveSz particles contacts).1 (solveSz particles contacts).2
    (fun i => (particles i).x)

/-- The outer `Solve` writes back exactly the decomposed state. -/
theorem Solve_particles {np : ℕ} (particles : Fin np → b3Particle)
    (forces : List (b3Force np)) (contacts : List (b3ParticleContact np))
    (dt : ℚ) (gravity : b3Vec3) (i : Fin np) :
    (Solve particles forces contacts dt gravity).particles i =
      { particles i with
        position := (solveSd2 particles forces dt gravity).x i +
          dt • ((solveSd2 particles forces dt gravity).v i +
            (solveXits particles forces contacts dt gravity).1 i) +
          biasTranslation particles contacts i
        velocity := (solveSd2 particles forces dt gravity).v i +
          (solveXits particles forces contacts dt gravity).1 i
        x := (solveXits particles forces contacts dt gravity).1 i } := rfl

/-- `mpcgSolve` returns the `x` of the loop's final iterate. -/
theorem mpcgSolve_x {np : ℕ} (A : b3SymMat33 np) (b : b3DenseVec3 np)
    (S : b3DiagMat33 np) (z y : b3DenseVec3 np) :
    (mpcgSolve A b S z y).1 =
      ((mpcgStep A S (solverInvP A))^[(mpcgSolve A b S z y).2]
        (mpcgInit A b S z y)).x := by
  have hdef : mpcgSolve A b S z y =
      ((mpcgLoop A S (solverInvP A) (mpcgBDelta A b S z) max_iterations
        (mpcgInit A b S z y)).1.x,
       (mpcgLoop A S (solverInvP A) (mpcgBDelta A b S z) max_iterations
        (mpcgInit A b S z y)).2) := rfl
  rw [hdef, mpcgLoop_iterate]

/-- A fold of force passes that each preserve the velocity buffer
preserves the velocity buffer. -/
theorem foldl_forces_v {np : ℕ} (l : List (b3Force np))
    (step : b3ClothSolverData np → b3Force np → b3ClothSolverData np)
    (hstep : ∀ fo ∈ l, ∀ sd, (step sd fo).v = sd.v) :
    ∀ sd0, (l.foldl step sd0).v = sd0.v := by
  induction l with
  | nil => exact fun sd0 => rfl
  | cons fo l ih =>
    intro sd0
    rw [List.foldl_cons,
      ih (fun fo' hfo' sd => hstep fo' (List.mem_cons_of_mem _ hfo') sd)
        (step sd0 fo),
      hstep fo (by simp) sd0]

/-- At a particle that is non-dynamic and has no contact, the projector
block is zero, the target is zero, the solved velocity increment is zero,
and the outer solve leaves the particle's velocity unchanged (given that
the forces only write the force buffer and the Jacobian accumulators, as
the spring implementation does). -/
theorem solve_zero_dof {np : ℕ} (particles : Fin np → b3Particle)
    (forces : List (b3Force np)) (contacts : List (b3ParticleContact np))
    (dt : ℚ) (gravity : b3Vec3) (i : Fin np)
    (hv : ∀ fo ∈ forces, ∀ sd,
      (fo.Initialize sd).v = sd.v ∧ (fo.Apply sd).v = sd.v)
    (hnd : (particles i).type ≠ e_dynamicParticle)
    (hnc : ∀ c ∈ contacts, c.p1 ≠ i) :
    (solveSz particles contacts).1 i = b3Mat33.zero ∧
    (solveSz particles contacts).2 i = 0 ∧
    (solveXits particles forces contacts dt gravity).1 i = 0 ∧
    ((Solve particles forces contacts dt gravity).particles i).velocity
      = (particles i).velocity ∧
    ((Solve particles forces contacts dt gravity).particles i).x = 0 := by
  have hSz : (solveSz particles contacts).1 i = b3Mat33.zero ∧
      (solveSz particles contacts).2 i = 0 := by
    obtain ⟨l₁, l₂, hsplit, h2⟩ :=
      initializeConstraints_zero_dof particles contacts i hnd hnc
    exact Compute_S_z_zero_dof _ ⟨i, 0, 0, 0, 0⟩ l₁ l₂ hsplit rfl rfl h2
  have hx : (solveXits particles forces contacts dt gravity).1 i = 0 := by
    have hidem : ((solveSz particles contacts).1 i).mul
        ((solveSz particles contacts).1 i) = (solveSz particles contacts).1 i := by
      rw [hSz.1]
      exact b3Mat33_zero_mul_zero
    have hxit := mpcgSolve_x
      (solveAb particles forces contacts dt gravity).1
      (solveAb particles forces contacts dt gravity).2
      (solveSz particles contacts).1 (solveSz particles contacts).2
      (fun j => (particles j).x)
    have hinv := (mpcg_iterate_invariant
      (solveAb particles forces contacts dt gravity).1
      (solveAb particles forces contacts dt gravity).2
      (solveSz particles contacts).1
      (solverInvP (solveAb particles forces contacts dt gravity).1)
      (solveSz particles contacts).2 (fun j => (particles j).x) i hidem
      ((mpcgSolve (solveAb particles forces contacts dt gravity).1
        (solveAb particles forces contacts dt gravity).2
        (solveSz particles contacts).1 (solveSz particles contacts).2
        (fun j => (particles j).x)).2)).1
    rw [← hxit] at hinv
    rw [hSz.1, hSz.2, b3Mat33_identity_sub_zero, b3Mat33.identity_mulVec,
      b3Mat33.identity_mulVec] at hinv
    exact hinv
  have hsd2v : (solveSd2 particles forces dt gravity).v =
      fun j => (particles j).velocity := by
    unfold solveSd2
    rw [foldl_forces_v _ _ (fun fo hfo sd => (hv fo hfo sd).2),
      foldl_forces_v _ _ (fun fo hfo sd => (hv fo hfo sd).1)]
    rfl
  refine ⟨hSz.1, hSz.2, hx, ?_, ?_⟩
  · rw [Solve_particles]
    show (solveSd2 particles forces dt gravity).v i +
      (solveXits particles forces contacts dt gravity).1 i
      = (particles i).velocity
    rw [hx, hsd2v, add_zero]
  · rw [Solve_particles]
    exact hx

end b3ClothSolver

/-- C1 (amended): every MPCG iterate `x` satisfies `(I-S)x = (I-S)z` at
every particle whose projection block is idempotent (which holds at every
zero-dof particle, where the block is zero); consequently, for a particle
that is non-dynamic and carries no contact, the projector block is zero,
the prescribed target `z` is zero, the solved velocity increment equals
`z = 0` exactly regardless of internal-force magnitude, and the particle's
velocity is left unchanged by the solve — it equals the prescribed target
only when it was already equal to it (as for static particles, whose
velocity is zeroed on `SetType`), while a kinematic particle keeps its
velocity. -/
theorem claim_C1 {np : ℕ} (particles : Fin np → b3Particle)
    (forces : List (b3Force np)) (contacts : List (b3ParticleContact np))
    (dt : ℚ) (gravity : b3Vec3) (i : Fin np)
    (hv : ∀ fo ∈ forces, ∀ sd,
      (fo.Initialize sd).v = sd.v ∧ (fo.Apply sd).v = sd.v)
    (hnd : (particles i).type ≠ e_dynamicParticle)
    (hnc : ∀ c ∈ contacts, c.p1 ≠ i) :
    (∀ (A' : b3SymMat33 np) (b' : b3DenseVec3 np)
      (S' invP' : b3DiagMat33 np) (z' y' : b3DenseVec3 np) (j : Fin np),
      (S' j).mul (S' j) = S' j → ∀ k : ℕ,
      (b3Mat33.identity - S' j).mulVec
          (((b3ClothSolver.mpcgStep A' S' invP')^[k]
            (b3ClothSolver.mpcgInit A' b' S' z' y')).x j)
        = (b3Mat33.identity - S' j).mulVec (z' j)) ∧
    (b3ClothSolver.solveSz particles contacts).1 i = b3Mat33.zero ∧
    (b3ClothSolver.solveSz particles contacts).2 i = 0 ∧
    (b3ClothSolver.solveXits particles forces contacts dt gravity).1 i = 0 ∧
    ((b3ClothSolver.Solve particles forces contacts dt
        gravity).particles i).velocity = (particles i).velocity ∧
    ((b3ClothSolver.Solve particles forces contacts dt
        gravity).particles i).x = 0 :=
  ⟨fun A' b' S' invP' z' y' j hj k =>
    (mpcg_iterate_invariant A' b' S' invP' z' y' j hj k).1,
   b3ClothSolver.solve_zero_dof particles forces contacts dt gravity i
     hv hnd hnc⟩

/-- A kinematic particle with velocity `(1, 0, 0)`. -/
def c1p : b3Particle :=
  ⟨e_kinematicParticle, 0, ⟨1, 0, 0⟩, 0, 1, 0, 0, 0, 0⟩

/-- C1 counterexample: a kinematic particle is zero-dof (its projector
block is zero and its prescribed target `z` is zero), yet after a solve
with `dt = 1 > 0` its velocity is `(1, 0, 0) ≠ z`: the claim that the
velocity component of every zero-dof particle equals its prescribed target
fails — only the velocity *increment* equals the target. -/
theorem claim_C1_cex :
    c1p.type ≠ e_dynamicParticle ∧
    (b3ClothSolver.solveSz (fun _ : Fin 1 => c1p) []).1 0 = b3Mat33.zero ∧
    (b3ClothSolver.solveSz (fun _ : Fin 1 => c1p) []).2 0 = 0 ∧
    (0 : ℚ) < 1 ∧
    ((b3ClothSolver.Solve (fun _ : Fin 1 => c1p) [] [] 1
        0).particles 0).velocity
      ≠ (b3ClothSolver.solveSz (fun _ : Fin 1 => c1p) []).2 0 := by
  obtain ⟨h1, h2, h3, h4, h5⟩ :=
    b3ClothSolver.solve_zero_dof (fun _ : Fin 1 => c1p) [] [] 1 0 0
      (by simp) (by decide) (by simp)
  refine ⟨by decide, h1, h2, by norm_num, ?_⟩
  rw [h4, h2]
  simp [c1p, b3Vec3.ext_iff]

theorem claim_C1_witness :
    c1p.type ≠ e_dynamicParticle ∧
    (b3ClothSolver.solveXits (fun _ : Fin 1 => c1p) [] [] 1 0).1 0 = 0 :=
  ⟨by decide,
   (claim_C1 (fun _ : Fin 1 => c1p) [] [] 1 0 0 (by simp) (by decide)
     (by simp)).2.2.2.1⟩

end Bounce
